import Mathlib

/-!
# GEM DQM base class, HGCal cell shapes, centrality table producer

Shallow embeddings of `DQM/GEM/interface/GEMDQMBase.h` (namespace `GEMDQM`: index
arithmetic and the histogram-map registry),
`Geometry/HGCalCommonData/plugins/dd4hep/DDHGCalCell.cc` (namespace `HGCal`) and
`RecoHI/HiCentralityAlgos/plugins/CentralityTableProducer.cc` (namespace `Centrality`).
The definitions of the three come first, the theorems after them.

Conventions of the embedding
* `int` / `Int_t` values are mathematical integers (`Int`); the properties below are
  stated for runs without signed overflow, which is undefined behaviour in C++.
* The C++ operator `%` truncates towards zero, so it is `Int.tmod`.
* `Double_t`, `double` and `float` values are rationals (`ℚ`): exact arithmetic, no
  rounding.
* A `MonitorElement *` is an `Option MonitorElement`; `none` is `nullptr`.
* Member functions that change the object return the new object next to the
  C++ return value.
-/

namespace GEMDQM

/-! ## The part of `GEMDQMBase` the index arithmetic reads -/

/-- The data members of `GEMDQMBase` read by the functions embedded here. -/
structure GEMDQMBase where
  log_category_ : String
  nNumEtaPartitionGE0_ : Int
  nNumEtaPartitionGE11_ : Int
  nNumEtaPartitionGE21_ : Int
  deriving DecidableEq, Repr

namespace GEMDQMBase

/-- `GEMDQMBase::getVFATNumberGE11`:
`vfat_phi * nNumEtaPartitionGE11_ + (nNumEtaPartitionGE11_ - ieta)`. -/
def getVFATNumberGE11 (self : GEMDQMBase) (_station ieta vfat_phi : Int) : Int :=
  vfat_phi * self.nNumEtaPartitionGE11_ + (self.nNumEtaPartitionGE11_ - ieta)

/-- `GEMDQMBase::getVFATNumber`: both branches call the GE11 function. -/
def getVFATNumber (self : GEMDQMBase) (station ieta vfat_phi : Int) : Int :=
  if station = 1 then
    self.getVFATNumberGE11 station ieta vfat_phi
  else
    self.getVFATNumberGE11 station ieta vfat_phi

/-- `GEMDQMBase::getIEtaFromVFATGE11`: `8 - (vfat % nNumEtaPartitionGE11_)`.
A zero partition count is a division by zero in C++ and outside the embedding. -/
def getIEtaFromVFATGE11 (self : GEMDQMBase) (vfat : Int) : Int :=
  8 - Int.tmod vfat self.nNumEtaPartitionGE11_

/-- `GEMDQMBase::getIEtaFromVFAT`: both branches call the GE11 function. -/
def getIEtaFromVFAT (self : GEMDQMBase) (station vfat : Int) : Int :=
  if station = 1 then
    self.getIEtaFromVFATGE11 vfat
  else
    self.getIEtaFromVFATGE11 vfat

end GEMDQMBase

/-- `GEMDQMBase::getDetOccXBin`: `n_chambers * (chamber - 1) + layer`.
The function reads no data member. -/
def getDetOccXBin (chamber layer n_chambers : Int) : Int :=
  n_chambers * (chamber - 1) + layer

/-- Injectivity of `getDetOccXBin` on the grid `[1, Nchambers] × [1, Nlayers]`
with `n_chambers = Nchambers`. -/
def DetOccInjectiveOn (Nchambers Nlayers : Int) : Prop :=
  ∀ chamber chamber' layer layer' : Int,
    1 ≤ chamber → chamber ≤ Nchambers → 1 ≤ chamber' → chamber' ≤ Nchambers →
    1 ≤ layer → layer ≤ Nlayers → 1 ≤ layer' → layer' ≤ Nlayers →
    getDetOccXBin chamber layer Nchambers = getDetOccXBin chamber' layer' Nchambers →
    chamber = chamber' ∧ layer = layer'

/-! ## Plots

`dqm::impl::MonitorElement` and `DQMStore::IBooker` are declared outside this header.
A plot is kept as its booking data and the calls it has received. -/

/-- One call of `MonitorElement::Fill` as issued by the registry:
`Fill(x)` or `Fill(x, y, w)`. -/
inductive FillCall where
  | x (x : ℚ)
  | xyw (x y w : ℚ)
  deriving DecidableEq

/-- The shape a plot is booked with. -/
inductive Kind where
  | TH1F (nbinsx : Int) (xlow xup : ℚ)
  | TH1FEdges (nbinsx : Int) (edges : List ℚ)
  | TH2F (nbinsx : Int) (xlow xup : ℚ) (nbinsy : Int) (ylow yup : ℚ)
  | TProfile2D (nbinsx : Int) (xlow xup : ℚ) (nbinsy : Int) (ylow yup : ℚ) (zlow zup : ℚ)
  deriving DecidableEq

/-- Modelled from the spec: the plot object (`MonitorElement`, declared in
`DQMServices/Core`) is "one lazily-created plot handle", "mutated only by fill
operations"; it is kept as name, title, booked shape, the `Fill` calls received in
order, and the `setBinLabel(bin, label, axis)` calls received in order. -/
structure MonitorElement where
  name : String
  title : String
  kind : Kind
  fills : List FillCall
  binLabels : List (Int × String × Int)
  deriving DecidableEq

namespace MonitorElement

/-- `hist->Fill(x)`. -/
def Fill (hist : MonitorElement) (x : ℚ) : MonitorElement :=
  { hist with fills := hist.fills ++ [FillCall.x x] }

/-- `hist->Fill(x, y, w)`. -/
def Fill3 (hist : MonitorElement) (x y w : ℚ) : MonitorElement :=
  { hist with fills := hist.fills ++ [FillCall.xyw x y w] }

/-- `hist->setBinLabel(bin, label, axis)`. -/
def setBinLabel (hist : MonitorElement) (bin : Int) (label : String) (axis : Int) :
    MonitorElement :=
  { hist with binLabels := hist.binLabels ++ [(bin, label, axis)] }

end MonitorElement

namespace MonitorElement

end MonitorElement

/-- Modelled from the spec: `DQMStore::IBooker::book1D(name, title, nbinsx, xlow, xup)`
"creates the backing plot using the configured shape": a new, empty plot. -/
def IBooker.book1D (name title : String) (nbinsx : Int) (xlow xup : ℚ) : MonitorElement :=
  ⟨name, title, Kind.TH1F nbinsx xlow xup, [], []⟩

/-- Modelled from the spec: `DQMStore::IBooker::book1D(name, h_obj)` for
`h_obj = new TH1F(name, title, nbinsx, edges)`: a new, empty plot. -/
def IBooker.book1DEdges (name title : String) (nbinsx : Int) (edges : List ℚ) :
    MonitorElement :=
  ⟨name, title, Kind.TH1FEdges nbinsx edges, [], []⟩

/-- Modelled from the spec: `DQMStore::IBooker::book2D`: a new, empty 2D plot. -/
def IBooker.book2D (name title : String) (nbinsx : Int) (xlow xup : ℚ)
    (nbinsy : Int) (ylow yup : ℚ) : MonitorElement :=
  ⟨name, title, Kind.TH2F nbinsx xlow xup nbinsy ylow yup, [], []⟩

/-- Modelled from the spec: `DQMStore::IBooker::bookProfile2D`: a new, empty
2D profile. -/
def IBooker.bookProfile2D (name title : String) (nbinsx : Int) (xlow xup : ℚ)
    (nbinsy : Int) (ylow yup zlow zup : ℚ) : MonitorElement :=
  ⟨name, title, Kind.TProfile2D nbinsx xlow xup nbinsy ylow yup zlow zup, [], []⟩

/-! ## `GEMDQMBase::BookingHelper` -/

/-- `GEMDQMBase::BookingHelper`: the name and title suffixes (the booker itself is
the DQM store's). -/
structure BookingHelper where
  name_suffix_ : String
  title_suffix_ : String
  deriving DecidableEq

namespace BookingHelper

/-- `BookingHelper::book1D(name, title, nbinsx, xlow, xup, x_title, y_title)`. -/
def book1D (bh : BookingHelper) (name title : String) (nbinsx : Int) (xlow xup : ℚ)
    (x_title y_title : String) : MonitorElement :=
  let name := name ++ bh.name_suffix_
  let title := title ++ (bh.title_suffix_ ++ ";" ++ x_title ++ ";" ++ y_title)
  IBooker.book1D name title nbinsx xlow xup

/-- `BookingHelper::book1D(name, title, x_binning, x_title, y_title)`: a `TH1F` with
`x_binning.size() - 1` bins on the given edges. -/
def book1DEdges (bh : BookingHelper) (name title : String) (x_binning : List ℚ)
    (x_title y_title : String) : MonitorElement :=
  let name := name ++ bh.name_suffix_
  let title := title ++ (bh.title_suffix_ ++ ";" ++ x_title ++ ";" ++ y_title)
  IBooker.book1DEdges name title ((x_binning.length : Int) - 1) x_binning

/-- `BookingHelper::book2D`. -/
def book2D (bh : BookingHelper) (name title : String) (nbinsx : Int) (xlow xup : ℚ)
    (nbinsy : Int) (ylow yup : ℚ) (x_title y_title : String) : MonitorElement :=
  let name := name ++ bh.name_suffix_
  let title := title ++ (bh.title_suffix_ ++ ";" ++ x_title ++ ";" ++ y_title)
  IBooker.book2D name title nbinsx xlow xup nbinsy ylow yup

/-- `BookingHelper::bookProfile2D`. -/
def bookProfile2D (bh : BookingHelper) (name title : String) (nbinsx : Int) (xlow xup : ℚ)
    (nbinsy : Int) (ylow yup zlow zup : ℚ) (x_title y_title : String) : MonitorElement :=
  let name := name ++ bh.name_suffix_
  let title := title ++ (bh.title_suffix_ ++ ";" ++ x_title ++ ";" ++ y_title)
  IBooker.bookProfile2D name title nbinsx xlow xup nbinsy ylow yup zlow zup

end BookingHelper
/-! ## Detector keys and the key-to-plot map -/

/-- Modelled from the spec: a detector key is "an ordered tuple of small integers
(region, station[, layer][, chamber-or-eta])"; `ME2IdsKey` is the pair. -/
abbrev ME2IdsKey := Int × Int

/-- Modelled from the spec: the three-component detector key. -/
abbrev ME3IdsKey := Int × Int × Int

/-- Modelled from the spec: the four-component detector key. -/
abbrev ME4IdsKey := Int × Int × Int × Int

/-- The tuple accessors `std::get<0>(key)` and `std::get<1>(key)`. -/
class IdsKey (K : Type) where
  get0 : K → Int
  get1 : K → Int

instance : IdsKey ME2IdsKey := ⟨fun key => key.1, fun key => key.2⟩

instance : IdsKey ME3IdsKey := ⟨fun key => key.1, fun key => key.2.1⟩

instance : IdsKey ME4IdsKey := ⟨fun key => key.1, fun key => key.2.1⟩

/-- The template argument `M`, a `std::map<K, MonitorElement *>`, as the list of its
entries. Lookup and update go by the first entry with the key, so the list acts as a
map; the iteration order of `std::map` is not used by the code embedded here. -/
abbrev MEMap (K : Type) := List (K × Option MonitorElement)

namespace MEMap

variable {K : Type} [DecidableEq K]

/-- `m.find(key)`: `none` is `m.end()`, `some v` the mapped pointer. -/
def find : MEMap K → K → Option (Option MonitorElement)
  | [], _ => none
  | (k, v) :: rest, key => if k = key then some v else find rest key

/-- `m[key]` as an rvalue: the mapped pointer, after inserting a value-initialised
(null) pointer when the key has no entry. -/
def index (m : MEMap K) (key : K) : Option MonitorElement × MEMap K :=
  match m.find key with
  | some v => (v, m)
  | none => (none, m ++ [(key, none)])

/-- `m[key] = v`. -/
def assign : MEMap K → K → Option MonitorElement → MEMap K
  | [], key, v => [(key, v)]
  | (k, u) :: rest, key, v =>
    if k = key then (k, v) :: rest else (k, u) :: assign rest key v

/-- The plots the map points to (the entries that are not null). -/
def plots (m : MEMap K) : List MonitorElement :=
  m.filterMap (fun e => e.2)

end MEMap

/-! ## `GEMDQMBase::MEMapInfT` -/

/-- The data members of `MEMapInfT<M, K>`, and `log`, the messages the object has
sent to `edm::LogError` (category, text). -/
structure MEMapInfT (K : Type) where
  pDQMBase_ : GEMDQMBase
  mapHist : MEMap K
  strName_ : String
  strTitle_ : String
  strTitleX_ : String
  strTitleY_ : String
  bOperating_ : Bool
  bIsProfile_ : Bool
  bIsNoUnderOverflowBin_ : Bool
  x_binning_ : List ℚ
  nBinsX_ : Int
  dXL_ : ℚ
  dXH_ : ℚ
  nBinsY_ : Int
  dYL_ : ℚ
  dYH_ : ℚ
  nBinsZ_ : Int
  dZL_ : ℚ
  dZH_ : ℚ
  dXU_ : ℚ
  dXO_ : ℚ
  dYU_ : ℚ
  dYO_ : ℚ
  dZU_ : ℚ
  dZO_ : ℚ
  log_category_own_ : String
  log : List (String × String)

namespace MEMapInfT

variable {K : Type}

/-! ### Constructors

A C++ constructor leaves the scalar members it does not name uninitialised; `mem` is
the object before construction and supplies those values. Containers and strings that
are not named are default-constructed (empty). -/

/-- `MEMapInfT()`. -/
def mkDefault (mem : MEMapInfT K) : MEMapInfT K :=
  { mem with
    mapHist := [], strName_ := "", strTitle_ := "", strTitleX_ := "", strTitleY_ := "",
    bOperating_ := false, bIsNoUnderOverflowBin_ := false, x_binning_ := [],
    log_category_own_ := "", log := [] }

/-- `MEMapInfT(pDQMBase, strName, strTitle, strTitleX, strTitleY)`. -/
def mkNamed (mem : MEMapInfT K) (pDQMBase : GEMDQMBase) (strName strTitle : String)
    (strTitleX strTitleY : String) : MEMapInfT K :=
  { mem with
    pDQMBase_ := pDQMBase, mapHist := [], strName_ := strName, strTitle_ := strTitle,
    strTitleX_ := strTitleX, strTitleY_ := strTitleY, x_binning_ := [],
    log_category_own_ := pDQMBase.log_category_, log := [] }

/-- `MEMapInfT(pDQMBase, strName, strTitle, nBinsX, dXL, dXH, strTitleX, strTitleY)`:
1D, fixed-width bins. -/
def mk1D (mem : MEMapInfT K) (pDQMBase : GEMDQMBase) (strName strTitle : String)
    (nBinsX : Int) (dXL dXH : ℚ) (strTitleX strTitleY : String) : MEMapInfT K :=
  { mem with
    pDQMBase_ := pDQMBase, mapHist := [], strName_ := strName, strTitle_ := strTitle,
    strTitleX_ := strTitleX, strTitleY_ := strTitleY,
    bOperating_ := true, bIsProfile_ := false, bIsNoUnderOverflowBin_ := false,
    x_binning_ := [], nBinsX_ := nBinsX, dXL_ := dXL, dXH_ := dXH, nBinsY_ := -1,
    log_category_own_ := pDQMBase.log_category_, log := [] }

/-- `MEMapInfT(pDQMBase, strName, strTitle, x_binning, strTitleX, strTitleY)`:
1D, explicit bin edges; the loop copies `x_binning` element by element. -/
def mk1DEdges (mem : MEMapInfT K) (pDQMBase : GEMDQMBase) (strName strTitle : String)
    (x_binning : List ℚ) (strTitleX strTitleY : String) : MEMapInfT K :=
  { mem with
    pDQMBase_ := pDQMBase, mapHist := [], strName_ := strName, strTitle_ := strTitle,
    strTitleX_ := strTitleX, strTitleY_ := strTitleY,
    bOperating_ := true, bIsProfile_ := false, bIsNoUnderOverflowBin_ := false,
    x_binning_ := x_binning.foldl (fun acc e => acc ++ [e]) [],
    nBinsX_ := -1, nBinsY_ := -1,
    log_category_own_ := pDQMBase.log_category_, log := [] }

/-- `MEMapInfT(pDQMBase, strName, strTitle, nBinsX, dXL, dXH, nBinsY, dYL, dYH,
strTitleX, strTitleY)`: 2D. -/
def mk2D (mem : MEMapInfT K) (pDQMBase : GEMDQMBase) (strName strTitle : String)
    (nBinsX : Int) (dXL dXH : ℚ) (nBinsY : Int) (dYL dYH : ℚ)
    (strTitleX strTitleY : String) : MEMapInfT K :=
  { mem with
    pDQMBase_ := pDQMBase, mapHist := [], strName_ := strName, strTitle_ := strTitle,
    strTitleX_ := strTitleX, strTitleY_ := strTitleY,
    bOperating_ := true, bIsProfile_ := false, bIsNoUnderOverflowBin_ := false,
    x_binning_ := [], nBinsX_ := nBinsX, dXL_ := dXL, dXH_ := dXH,
    nBinsY_ := nBinsY, dYL_ := dYL, dYH_ := dYH, dZL_ := 0, dZH_ := 1024,
    log_category_own_ := pDQMBase.log_category_, log := [] }

/-- `MEMapInfT(pDQMBase, strName, strTitle, nBinsX, dXL, dXH, nBinsY, dYL, dYH, dZL, dZH,
strTitleX, strTitleY)`: 2D profile. -/
def mkProfile2D (mem : MEMapInfT K) (pDQMBase : GEMDQMBase) (strName strTitle : String)
    (nBinsX : Int) (dXL dXH : ℚ) (nBinsY : Int) (dYL dYH dZL dZH : ℚ)
    (strTitleX strTitleY : String) : MEMapInfT K :=
  { mem with
    pDQMBase_ := pDQMBase, mapHist := [], strName_ := strName, strTitle_ := strTitle,
    strTitleX_ := strTitleX, strTitleY_ := strTitleY,
    bOperating_ := true, bIsProfile_ := true, bIsNoUnderOverflowBin_ := false,
    x_binning_ := [], nBinsX_ := nBinsX, dXL_ := dXL, dXH_ := dXH,
    nBinsY_ := nBinsY, dYL_ := dYL, dYH_ := dYH, dZL_ := dZL, dZH_ := dZH,
    log_category_own_ := pDQMBase.log_category_, log := [] }

/-- An all-zero object, to stand for the memory a constructor starts from. -/
def zeroed : MEMapInfT K :=
  { pDQMBase_ := ⟨"", 0, 0, 0⟩, mapHist := [], strName_ := "", strTitle_ := "",
    strTitleX_ := "", strTitleY_ := "", bOperating_ := false, bIsProfile_ := false,
    bIsNoUnderOverflowBin_ := false, x_binning_ := [], nBinsX_ := 0, dXL_ := 0, dXH_ := 0,
    nBinsY_ := 0, dYL_ := 0, dYH_ := 0, nBinsZ_ := 0, dZL_ := 0, dZH_ := 0,
    dXU_ := 0, dXO_ := 0, dYU_ := 0, dYO_ := 0, dZU_ := 0, dZO_ := 0,
    log_category_own_ := "", log := [] }

/-! ### Switches -/

/-- `TurnOn()`. -/
def TurnOn (r : MEMapInfT K) : MEMapInfT K := { r with bOperating_ := true }

/-- `TurnOff()`. -/
def TurnOff (r : MEMapInfT K) : MEMapInfT K := { r with bOperating_ := false }

/-- `SetPointUOFlow()`: the centres of the first and last bin of each axis. The
expressions are the source's, on exact rationals (`x / 0 = 0` there, while the
`double` division gives an infinity or a NaN). -/
def SetPointUOFlow (r : MEMapInfT K) : MEMapInfT K :=
  { r with
    dXU_ := r.dXL_ + (r.dXH_ - r.dXL_) / (r.nBinsX_ : ℚ) * (1 / 2),
    dXO_ := r.dXL_ + (r.dXH_ - r.dXL_) / (r.nBinsX_ : ℚ) * ((r.nBinsX_ : ℚ) - 1 / 2),
    dYU_ := r.dYL_ + (r.dYH_ - r.dYL_) / (r.nBinsY_ : ℚ) * (1 / 2),
    dYO_ := r.dYL_ + (r.dYH_ - r.dYL_) / (r.nBinsY_ : ℚ) * ((r.nBinsY_ : ℚ) - 1 / 2),
    dZU_ := r.dZL_ + (r.dZH_ - r.dZL_) / (r.nBinsZ_ : ℚ) * (1 / 2),
    dZO_ := r.dZL_ + (r.dZH_ - r.dZL_) / (r.nBinsZ_ : ℚ) * ((r.nBinsZ_ : ℚ) - 1 / 2) }

/-! ### Setters of the axis configuration

None of them calls `SetPointUOFlow`: `dXU_, dXO_, dYU_, dYO_` keep their values. -/

/-- `SetNbinsX(nBinsX)`. -/
def SetNbinsX (nBinsX : Int) (r : MEMapInfT K) : MEMapInfT K := { r with nBinsX_ := nBinsX }

/-- `SetBinLowEdgeX(dXL)`. -/
def SetBinLowEdgeX (dXL : ℚ) (r : MEMapInfT K) : MEMapInfT K := { r with dXL_ := dXL }

/-- `SetBinHighEdgeX(dXH)`. -/
def SetBinHighEdgeX (dXH : ℚ) (r : MEMapInfT K) : MEMapInfT K := { r with dXH_ := dXH }

/-- `SetNbinsY(nBinsY)`. -/
def SetNbinsY (nBinsY : Int) (r : MEMapInfT K) : MEMapInfT K := { r with nBinsY_ := nBinsY }

/-- `SetBinLowEdgeY(dYL)`. -/
def SetBinLowEdgeY (dYL : ℚ) (r : MEMapInfT K) : MEMapInfT K := { r with dYL_ := dYL }

/-- `SetBinHighEdgeY(dYH)`. -/
def SetBinHighEdgeY (dYH : ℚ) (r : MEMapInfT K) : MEMapInfT K := { r with dYH_ := dYH }

/-- `SetBinConfY(nBins, dL, dH)`; the defaults are `dL = 0.5` and `dH = -1048576.0`. -/
def SetBinConfY (nBins : Int) (dL dH : ℚ) (r : MEMapInfT K) : MEMapInfT K :=
  let dH := if dH ≤ dL then dL + (nBins : ℚ) else dH
  { r with nBinsY_ := nBins, dYL_ := dL, dYH_ := dH }

variable [DecidableEq K]

/-- The plot stored under `key`, if the map has an entry for `key` that is not null. -/
def getHist (r : MEMapInfT K) (key : K) : Option MonitorElement :=
  (r.mapHist.find key).bind id

/-- Writing through the pointer stored under `key`: the pointee becomes `hist`. -/
def setHist (r : MEMapInfT K) (key : K) (hist : MonitorElement) : MEMapInfT K :=
  { r with mapHist := r.mapHist.assign key (some hist) }

/-! ### Operations -/

/-- `bookND(bh, key)`. The profile branch has no `return`, so it falls through to the
final `return -1`. The branch for a non-empty `x_binning_` calls the fixed-width
`book1D` overload with `nBinsX_, dXL_, dXH_`. -/
def bookND (bh : BookingHelper) (key : K) (r : MEMapInfT K) : Int × MEMapInfT K :=
  if !r.bOperating_ then (0, r)
  else
    let r := r.SetPointUOFlow
    if r.bIsProfile_ then
      (-1, { r with mapHist := r.mapHist.assign key (some
        (bh.bookProfile2D r.strName_ r.strTitle_ r.nBinsX_ r.dXL_ r.dXH_ r.nBinsY_ r.dYL_
          r.dYH_ r.dZL_ r.dZH_ r.strTitleX_ r.strTitleY_)) })
    else if r.nBinsY_ > 0 ∧ r.nBinsX_ > 0 then
      (0, { r with mapHist := r.mapHist.assign key (some
        (bh.book2D r.strName_ r.strTitle_ r.nBinsX_ r.dXL_ r.dXH_ r.nBinsY_ r.dYL_ r.dYH_
          r.strTitleX_ r.strTitleY_)) })
    else if !r.x_binning_.isEmpty then
      (0, { r with mapHist := r.mapHist.assign key (some
        (bh.book1D r.strName_ r.strTitle_ r.nBinsX_ r.dXL_ r.dXH_ r.strTitleX_
          r.strTitleY_)) })
    else if r.nBinsX_ > 0 then
      (0, { r with mapHist := r.mapHist.assign key (some
        (bh.book1D r.strName_ r.strTitle_ r.nBinsX_ r.dXL_ r.dXH_ r.strTitleX_
          r.strTitleY_)) })
    else (-1, r)

/-- `FindHist(key)`: a message when `find` fails, then `return mapHist[key]`, which
inserts a null entry for a key that has none. -/
def FindHist (key : K) (r : MEMapInfT K) : Option MonitorElement × MEMapInfT K :=
  let r :=
    if (r.mapHist.find key).isNone then
      { r with log := r.log ++ [(r.log_category_own_,
          "WARNING: Cannot find the histogram corresponing to the given key\n")] }
    else r
  let res := r.mapHist.index key
  (res.1, { r with mapHist := res.2 })

/-- The loop `for (i = 1; i <= nNumBin; i++) setBinLabel(i, Form("%i", i), nAxis)`. -/
def labelChambers (nAxis nNumBin : Int) (hist : MonitorElement) : MonitorElement :=
  (List.range nNumBin.toNat).foldl
    (fun h n => h.setBinLabel ((n : Int) + 1) (toString ((n : Int) + 1)) nAxis) hist

/-- `SetLabelForChambers(key, nAxis, nNumBin)`; the default of `nNumBin` is `-1`.
The first `match` is the block that replaces a non-positive `nNumBin` by the bin count
of the axis, or returns -1 for an axis other than 1 and 2. -/
def SetLabelForChambers (key : K) (nAxis nNumBin : Int) (r : MEMapInfT K) :
    Int × MEMapInfT K :=
  if !r.bOperating_ then (0, r)
  else
    match (if nNumBin ≤ 0 then
        (if nAxis = 1 then some r.nBinsX_ else if nAxis = 2 then some r.nBinsY_ else none)
      else some nNumBin) with
    | none => (-1, r)
    | some nNumBin =>
      match r.FindHist key with
      | (none, r1) => (-999, r1)
      | (some histCurr, r1) => (0, r1.setHist key (labelChambers nAxis nNumBin histCurr))

/-- `SetLabelForIEta(key, nAxis, nNumBin)` forwards to `SetLabelForChambers`. -/
def SetLabelForIEta (key : K) (nAxis nNumBin : Int) (r : MEMapInfT K) :
    Int × MEMapInfT K :=
  SetLabelForChambers key nAxis nNumBin r

/-- The loop `for (i = 0; i < nNumBin; i++)` of `SetLabelForVFATs`:
`setBinLabel(i + 1, Form("%i (%i)", i, nIEta), nAxis)` with
`nIEta = getIEtaFromVFAT(station, i)`. -/
def labelVFATs (base : GEMDQMBase) (station nAxis nNumBin : Int) (hist : MonitorElement) :
    MonitorElement :=
  (List.range nNumBin.toNat).foldl
    (fun h n =>
      h.setBinLabel ((n : Int) + 1)
        (toString (n : Int) ++ " (" ++ toString (base.getIEtaFromVFAT station n) ++ ")")
        nAxis) hist

/-- `SetLabelForVFATs(key, nNumEtaPartitions, nAxis, nNumBin)`; the station is
`std::get<1>(key)`, and `nNumEtaPartitions` is not read. -/
def SetLabelForVFATs [IdsKey K] (key : K) (_nNumEtaPartitions nAxis nNumBin : Int)
    (r : MEMapInfT K) : Int × MEMapInfT K :=
  if !r.bOperating_ then (0, r)
  else
    match (if nNumBin ≤ 0 then
        (if nAxis = 1 then some r.nBinsX_ else if nAxis = 2 then some r.nBinsY_ else none)
      else some nNumBin) with
    | none => (-1, r)
    | some nNumBin =>
      match r.FindHist key with
      | (none, r1) => (-999, r1)
      | (some histCurr, r1) =>
        (0, r1.setHist key
          (labelVFATs r1.pDQMBase_ (IdsKey.get1 key) nAxis nNumBin histCurr))

/-- `Fill(key, x)`. -/
def Fill (key : K) (x : ℚ) (r : MEMapInfT K) : Int × MEMapInfT K :=
  if !r.bOperating_ then (0, r)
  else
    match r.FindHist key with
    | (none, r1) => (-999, r1)
    | (some hist, r1) =>
      let x :=
        if r1.bIsNoUnderOverflowBin_ then
          (if x ≤ r1.dXL_ then r1.dXU_ else if x ≥ r1.dXH_ then r1.dXO_ else x)
        else x
      (1, r1.setHist key (hist.Fill x))

/-- `Fill(key, x, y, w)`; the default of `w` is `1.0`. -/
def Fill2 (key : K) (x y w : ℚ) (r : MEMapInfT K) : Int × MEMapInfT K :=
  if !r.bOperating_ then (0, r)
  else
    match r.FindHist key with
    | (none, r1) => (-999, r1)
    | (some hist, r1) =>
      let x :=
        if r1.bIsNoUnderOverflowBin_ then
          (if x ≤ r1.dXL_ then r1.dXU_ else if x ≥ r1.dXH_ then r1.dXO_ else x)
        else x
      let y :=
        if r1.bIsNoUnderOverflowBin_ then
          (if y ≤ r1.dYL_ then r1.dYU_ else if y ≥ r1.dYH_ then r1.dYO_ else y)
        else y
      (1, r1.setHist key (hist.Fill3 x y w))

/-- The loop of `FillBits`, with `n` iterations left, loop variable `i` and mask
`unMask` (a `UInt_t`, so the shift is modulo `2 ^ 32`). -/
def fillBitsLoop (x : ℚ) (bits : Nat) (w : ℚ) :
    Nat → Int → Nat → MonitorElement → MonitorElement
  | 0, _, _, hist => hist
  | n + 1, i, unMask, hist =>
    fillBitsLoop x bits w n (i + 1) ((unMask <<< 1) % 2 ^ 32)
      (if (unMask &&& bits) ≠ 0 then hist.Fill3 x (i : ℚ) w else hist)

/-- `FillBits(key, x, bits, w)`; `bits` is a `UInt_t`, the default of `w` is `1.0`. -/
def FillBits (key : K) (x : ℚ) (bits : Nat) (w : ℚ) (r : MEMapInfT K) :
    Int × MEMapInfT K :=
  if !r.bOperating_ then (0, r)
  else
    match r.FindHist key with
    | (none, r1) => (-999, r1)
    | (some hist, r1) =>
      if r1.nBinsY_ ≤ 0 then (-888, r1)
      else (1, r1.setHist key (fillBitsLoop x bits w r1.nBinsY_.toNat 1 1 hist))

/-- The registry `r'` differs from `r` at most by the lookup of `key` and a write to
the plot that `r` holds under `key`. -/
def TouchesOnly (key : K) (r r' : MEMapInfT K) : Prop :=
  r' = r ∨ r' = (r.FindHist key).2 ∨
    ∃ hist hist', r.getHist key = some hist ∧ r' = (r.FindHist key).2.setHist key hist'

end MEMapInfT

/-! ## Call sequences on a registry -/

/-- One call on a registry. -/
inductive Op (K : Type) where
  | bookND (bh : BookingHelper) (key : K)
  | Fill (key : K) (x : ℚ)
  | Fill2 (key : K) (x y w : ℚ)
  | FillBits (key : K) (x : ℚ) (bits : Nat) (w : ℚ)
  | SetLabelForChambers (key : K) (nAxis nNumBin : Int)
  | SetLabelForIEta (key : K) (nAxis nNumBin : Int)
  | SetLabelForVFATs (key : K) (nNumEtaPartitions nAxis nNumBin : Int)

/-- The effect of one call: return value and new registry. -/
def Op.apply {K : Type} [DecidableEq K] [IdsKey K] (op : Op K) (r : MEMapInfT K) :
    Int × MEMapInfT K :=
  match op with
  | Op.bookND bh key => r.bookND bh key
  | Op.Fill key x => r.Fill key x
  | Op.Fill2 key x y w => r.Fill2 key x y w
  | Op.FillBits key x bits w => r.FillBits key x bits w
  | Op.SetLabelForChambers key nAxis nNumBin => r.SetLabelForChambers key nAxis nNumBin
  | Op.SetLabelForIEta key nAxis nNumBin => r.SetLabelForIEta key nAxis nNumBin
  | Op.SetLabelForVFATs key n nAxis nNumBin => r.SetLabelForVFATs key n nAxis nNumBin

/-- The registry after a sequence of calls, first call first. -/
def runOps {K : Type} [DecidableEq K] [IdsKey K] (ops : List (Op K)) (r : MEMapInfT K) :
    MEMapInfT K :=
  ops.foldl (fun acc op => (op.apply acc).2) r

/-- The key is booked by the sequence: it holds a `bookND` call for the key. -/
def Booked {K : Type} (ops : List (Op K)) (key : K) : Prop :=
  ∃ bh, Op.bookND bh key ∈ ops

/-! ## Sample objects -/

/-- A `GEMDQMBase` with eight eta partitions for GE1/1. -/
def sampleBase : GEMDQMBase := ⟨"GEMDQM", 8, 8, 16⟩

/-- A booking helper with empty suffixes. -/
def sampleHelper : BookingHelper := ⟨"", ""⟩

/-- A registry made by the default constructor: not operating. -/
def sampleOff : MEMapInfT ME3IdsKey := MEMapInfT.mkDefault MEMapInfT.zeroed

/-- A 1D registry: four bins on `[0, 4]`. -/
def sample1D : MEMapInfT ME3IdsKey :=
  MEMapInfT.mk1D MEMapInfT.zeroed sampleBase "occ" "Occupancy" 4 0 4 "x" "Entries"

/-- A 2D registry: four bins on `[0, 4]` by two bins on `[0, 2]`. -/
def sample2D : MEMapInfT ME3IdsKey :=
  MEMapInfT.mk2D MEMapInfT.zeroed sampleBase "occ2" "Occupancy" 4 0 4 2 0 2 "x" "y"

/-- A registry built with the explicit-edges constructor, edges `0, 1, 3`. -/
def sampleEdges : MEMapInfT ME3IdsKey :=
  MEMapInfT.mk1DEdges MEMapInfT.zeroed sampleBase "stat" "Status" [0, 1, 3] "x" "Entries"

/-- The 2D registry after `bookND` for the key `(1, 1, 1)`. -/
def sample2DBooked : MEMapInfT ME3IdsKey :=
  (sample2D.bookND sampleHelper (1, 1, 1)).2

/-- The plot that `bookND` stores in `sample2DBooked`. -/
def samplePlot2D : MonitorElement :=
  sampleHelper.book2D "occ2" "Occupancy" 4 0 4 2 0 2 "x" "y"

/-- The positions of the set bits of a 32-bit mask, bit `i` being the bit of value
`2 ^ i`. -/
def setBits (bitmask : Nat) : List Nat :=
  (List.range 32).filter (fun i => bitmask.testBit i)

/-- The fills of `fillBits` as the specification words them: "for each set bit `i` in
`bitmask`, fills `(x, i)`", here in increasing order of `i`. -/
def fillBitsSpec (x : ℚ) (bitmask : Nat) (w : ℚ) : List FillCall :=
  (setBits bitmask).map (fun (i : Nat) => FillCall.xyw x (i : ℚ) w)

/-- The fills the loop of `FillBits` issues, in closed form: `(x, k + 1)` with weight
`w` for each `k < nBinsY` below 32 whose bit (of value `2 ^ k`) is set, in increasing
order of `k`. -/
def fillBitsCalls (x : ℚ) (bits : Nat) (w : ℚ) (nBinsY : Int) : List FillCall :=
  ((List.range nBinsY.toNat).filter (fun k => decide (k < 32) && bits.testBit k)).map
    (fun (k : Nat) => FillCall.xyw x (((k : Int) + 1 : Int) : ℚ) w)

/-! ## `GEMDQMBase::MEStationInfo` -/

/-- The data members of `MEStationInfo`; `fMinPhi_` is a `Float_t`. -/
structure MEStationInfo where
  nRegion_ : Int
  nStation_ : Int
  nLayer_ : Int
  nNumChambers_ : Int
  nNumEtaPartitions_ : Int
  nMaxVFAT_ : Int
  nNumDigi_ : Int
  fMinPhi_ : ℚ
  deriving DecidableEq

namespace MEStationInfo

/-- `MEStationInfo()`: only `nNumChambers_` is initialised; `mem` supplies the rest. -/
def mkDefault (mem : MEStationInfo) : MEStationInfo :=
  { mem with nNumChambers_ := -1 }

/-- `MEStationInfo(nRegion, nStation, nLayer, nNumChambers, nNumEtaPartitions, nMaxVFAT,
nNumDigi)`: `fMinPhi_` is not initialised; `mem` supplies it. -/
def mkInfo (mem : MEStationInfo) (nRegion nStation nLayer nNumChambers nNumEtaPartitions
    nMaxVFAT nNumDigi : Int) : MEStationInfo :=
  { mem with
    nRegion_ := nRegion, nStation_ := nStation, nLayer_ := nLayer,
    nNumChambers_ := nNumChambers, nNumEtaPartitions_ := nNumEtaPartitions,
    nMaxVFAT_ := nMaxVFAT, nNumDigi_ := nNumDigi }

/-- `MEStationInfo::operator==`. -/
def opEq (self other : MEStationInfo) : Bool :=
  self.nRegion_ == other.nRegion_ && self.nStation_ == other.nStation_ &&
    self.nLayer_ == other.nLayer_ &&
    self.nNumChambers_ == other.nNumChambers_ &&
    self.nNumEtaPartitions_ == other.nNumEtaPartitions_ &&
    self.nMaxVFAT_ == other.nMaxVFAT_ && self.nNumDigi_ == other.nNumDigi_

end MEStationInfo

/-- A registry built with the profile constructor: four bins on `[0, 4]` by two bins on
`[0, 2]`, z range `[0, 100]`. -/
def sampleProfile : MEMapInfT ME3IdsKey :=
  MEMapInfT.mkProfile2D MEMapInfT.zeroed sampleBase "prof" "Profile" 4 0 4 2 0 2 0 100 "x" "y"

/-- Two station-info records that differ in `fMinPhi_` only. -/
def sampleStationA : MEStationInfo := ⟨1, 1, 1, 36, 8, 24, 128, 0⟩

/-- The record `sampleStationA` with another `fMinPhi_`. -/
def sampleStationB : MEStationInfo := ⟨1, 1, 1, 36, 8, 24, 128, 1⟩

end GEMDQM

/-!
# HGCal cell shapes: `Geometry/HGCalCommonData/plugins/dd4hep/DDHGCalCell.cc`

The function `algorithm` of the plugin, compiled without `EDM_ML_DEBUG` (the macro is
commented out in the source). The arguments are taken as already read from the XML
element, and the material lookup `ns.material(material)` as returning the handle of
the material of that name.
-/

namespace HGCal

/-- The values `algorithm` reads through `args.value<..>(..)`. -/
structure Args where
  waferSize : ℚ
  waferT : ℚ
  cellT : ℚ
  nCells : Int
  posSens : Int
  material : String
  fullCN : String
  fullSensN : String
  truncCN : List String
  truncSensN : List String
  extenCN : List String
  extenSensN : List String
  cornrCN : List String
  cornrSensN : List String

/-- A `dd4hep::ExtrudedPolygon(x, y, z, zx, zy, scale)` with the name it is registered
under. -/
structure Solid where
  name : String
  x : List ℚ
  y : List ℚ
  z : List ℚ
  zx : List ℚ
  zy : List ℚ
  scale : List ℚ
  deriving DecidableEq

/-- A `dd4hep::Volume(name, solid, material)`. -/
structure Volume where
  name : String
  solid : Solid
  material : String
  deriving DecidableEq

/-- One `mother.placeVolume(daughter, copyNo, tran)`. -/
structure Placement where
  mother : String
  daughter : String
  copyNo : Int
  tran : ℚ × ℚ × ℚ
  deriving DecidableEq

/-- Modelled from the spec: the geometry namespace (`cms::DDNamespace`, declared in
`DetectorDescription/DDCMS`) receives each cell "as an extruded polygon solid plus its
sensitive (thinner) sub-volume placed concentrically"; it is kept as the solids and
volumes registered and the placements made, in order. `prepend` is its name-qualifying
function, taken as given. -/
structure DDNamespace where
  prepend : String → String
  solids : List Solid
  volumes : List Volume
  placements : List Placement

/-- How a run of `algorithm` ends: `return cms::s_executed`, a thrown
`cms::Exception(category)` with its message and the text sent to
`edm::LogError("HGCalGeom")` before it, or an access outside an array (undefined
behaviour in C++). `ns` is the namespace as it is at that point. -/
inductive Outcome where
  | executed (ns : DDNamespace)
  | thrown (category message logged : String) (ns : DDNamespace)
  | outOfRange

/-- `static const double sqrt3 = std::sqrt(3.0)`: the value of that `double`. -/
def sqrt3 : ℚ := 3900231685776981 / 2251799813685248

/-- `static const double waf2cell = 3.0`. -/
def waf2cell : ℚ := 3

/-- `static const double cornerfac = 2.5`. -/
def cornerfac : ℚ := 5 / 2

/-- The vertex abscissae `xx` (18 entries), from `R = waferSize / (waf2cell * nCells)`. -/
def xx (args : Args) : List ℚ :=
  let R := args.waferSize / (waf2cell * (args.nCells : ℚ))
  let dx1 := R
  let dx2 := 1 / 2 * dx1
  let dx3 := cornerfac * dx2
  let dx4 := 1 / 2 * dx2
  [dx1, dx2, -dx2, -dx1, -dx2, dx2, dx3, dx1, dx4, -dx4, -dx1, -dx3, -dx3, -dx1, -dx4, dx4,
    dx1, dx3]

/-- The vertex ordinates `yy` (18 entries), from `r = 0.5 * R * sqrt3`. -/
def yy (args : Args) : List ℚ :=
  let R := args.waferSize / (waf2cell * (args.nCells : ℚ))
  let r := 1 / 2 * R * sqrt3
  let dy1 := r
  let dy2 := 1 / 2 * dy1
  let dy3 := 3 / 2 * dy1
  [0, dy1, dy1, 0, -dy1, -dy1, dy2, dy1, dy3, dy3, dy1, dy2, -dy2, -dy1, -dy3, -dy3, -dy1,
    -dy2]

/-- `zpos = (posSens == 0) ? -0.5 * (waferT - cellT) : 0.5 * (waferT - cellT)`. -/
def zpos (args : Args) : ℚ :=
  if args.posSens = 0 then -(1 / 2) * (args.waferT - args.cellT)
  else 1 / 2 * (args.waferT - args.cellT)

/-- The table `ir0`. -/
def ir0 : List Nat := [0, 1, 0, 1, 3, 5]

/-- The table `ir1`. -/
def ir1 : List Nat := [1, 2, 1, 2, 4, 0]

/-- The table `ir2`. -/
def ir2 : List Nat := [2, 3, 3, 3, 5, 1]

/-- The table `ir3`. -/
def ir3 : List Nat := [3, 4, 4, 4, 0, 2]

/-- The table `ir4`. -/
def ir4 : List Nat := [5, 5, 5, 0, 2, 4]

/-- The table `ie0`. -/
def ie0 : List Nat := [1, 5, 0, 2, 4, 0]

/-- The table `ie1`. -/
def ie1 : List Nat := [2, 6, 1, 3, 5, 1]

/-- The table `ie2`. -/
def ie2 : List Nat := [3, 9, 10, 4, 0, 2]

/-- The table `ie3`. -/
def ie3 : List Nat := [14, 3, 13, 16, 8, 12]

/-- The table `ie4`. -/
def ie4 : List Nat := [17, 4, 5, 7, 11, 15]

/-- The table `ic0`. -/
def ic0 : List Nat := [0, 1, 1, 1, 1, 0, 1, 2, 3, 4, 5, 0]

/-- The table `ic1`. -/
def ic1 : List Nat := [1, 2, 2, 9, 3, 1, 2, 3, 4, 5, 0, 1]

/-- The table `ic2`. -/
def ic2 : List Nat := [10, 3, 3, 3, 4, 3, 12, 5, 16, 0, 8, 2]

/-- The table `ic3`. -/
def ic3 : List Nat := [3, 5, 14, 4, 5, 13, 4, 0, 0, 2, 2, 4]

/-- The table `ic4`. -/
def ic4 : List Nat := [5, 17, 5, 5, 6, 5, 0, 7, 2, 11, 4, 15]

/-- The entries `xs[k]` for the indices `k` of a list, in order; `none` when an index
is outside `xs`. -/
def lookupAll (xs : List ℚ) : List Nat → Option (List ℚ)
  | [] => some []
  | k :: ks =>
    match xs[k]?, lookupAll xs ks with
    | some v, some vs => some (v :: vs)
    | _, _ => none

/-- The entries `t[i]` of the tables `t` of a list, in order; `none` when `i` is outside
a table. -/
def tableRow (i : Nat) : List (List Nat) → Option (List Nat)
  | [] => some []
  | t :: ts =>
    match t[i]?, tableRow i ts with
    | some k, some ks => some (k :: ks)
    | _, _ => none

/-- The polygon of sub-cell `i`:
`xw = {xx[t0[i]], xx[t1[i]], xx[t2[i]], xx[t3[i]], xx[t4[i]]}` and `yw` likewise;
`none` when an index is outside its array. -/
def vertices (xs ys : List ℚ) (t0 t1 t2 t3 t4 : List Nat) (i : Nat) :
    Option (List ℚ × List ℚ) :=
  match tableRow i [t0, t1, t2, t3, t4] with
  | none => none
  | some idx =>
    match lookupAll xs idx, lookupAll ys idx with
    | some xw, some yw => some (xw, yw)
    | _, _ => none

/-- The block the source repeats for the full cell and in each loop: the cell solid
(`z = zw`) registered under `prepend(cellName)` and its volume, the sensitive solid
(`z = zc`) registered under `prepend(sensName)` and its volume, and the placement of the
sensitive volume in the cell volume with copy number 1 at `tran`. A volume takes the
name of its solid. -/
def addCell (matter : String) (zw zc zx zy scale : List ℚ) (tran : ℚ × ℚ × ℚ)
    (xw yw : List ℚ) (cellName sensName : String) (ns : DDNamespace) : DDNamespace :=
  let solid1 : Solid := ⟨ns.prepend cellName, xw, yw, zw, zx, zy, scale⟩
  let glog1 : Volume := ⟨solid1.name, solid1, matter⟩
  let solid2 : Solid := ⟨ns.prepend sensName, xw, yw, zc, zx, zy, scale⟩
  let glog2 : Volume := ⟨solid2.name, solid2, matter⟩
  { ns with
    solids := ns.solids ++ [solid1, solid2],
    volumes := ns.volumes ++ [glog1, glog2],
    placements := ns.placements ++ [⟨glog1.name, glog2.name, 1, tran⟩] }

/-- One of the three loops `for (i = 0; i < cellN.size(); ++i)` over the truncated,
extended or corner cells, with the index tables `t0 .. t4` of that loop; `none` when an
access falls outside an array. -/
def cellLoop (xs ys : List ℚ) (t0 t1 t2 t3 t4 : List Nat) (matter : String)
    (zw zc zx zy scale : List ℚ) (tran : ℚ × ℚ × ℚ) (cellN sensN : List String)
    (ns : DDNamespace) : Option DDNamespace :=
  (List.range cellN.length).foldlM
    (fun acc i => do
      let v ← vertices xs ys t0 t1 t2 t3 t4 i
      let cellName ← cellN[i]?
      let sensName ← sensN[i]?
      pure (addCell matter zw zc zx zy scale tran v.1 v.2 cellName sensName acc)) ns

/-- The text the first check sends to `edm::LogError`. -/
def differLog (args : Args) : String :=
  "The number of cells & sensitive differ:" ++ " Truncated " ++ toString args.truncCN.length
    ++ ":" ++ toString args.truncSensN.length ++ " Extended " ++ toString args.extenCN.length
    ++ ":" ++ toString args.extenSensN.length ++ " Corners " ++ toString args.cornrCN.length
    ++ ":" ++ toString args.cornrSensN.length

/-- The message of the exception of the first check. -/
def differWhat (args : Args) : String :=
  "The number of cells & sensitive " ++ "differ: Truncated " ++ toString args.truncCN.length
    ++ ":" ++ toString args.truncSensN.length ++ " Extended " ++ toString args.extenCN.length
    ++ ":" ++ toString args.extenSensN.length ++ " Corners " ++ toString args.cornrCN.length
    ++ ":" ++ toString args.cornrSensN.length

/-- The text the second check sends to `edm::LogError`. -/
def sizeLog (args : Args) : String :=
  "DDHGCalCell: The number of cells does not" ++ " match with Standard: Truncated "
    ++ toString args.truncCN.length ++ " < 3 Extended " ++ toString args.extenCN.length
    ++ " < 3" ++ " Corners " ++ toString args.cornrCN.length ++ " < 6"

/-- The message of the exception of the second check. -/
def sizeWhat (args : Args) : String :=
  "Wrong size of truncated|extended" ++ "|corner cells: " ++ toString args.truncCN.length
    ++ ":" ++ toString args.extenCN.length ++ ":" ++ toString args.cornrCN.length

/-- The function `algorithm`. -/
def algorithm (args : Args) (ns : DDNamespace) : Outcome :=
  if args.truncCN.length ≠ args.truncSensN.length ∨
      args.extenCN.length ≠ args.extenSensN.length ∨
      args.cornrCN.length ≠ args.cornrSensN.length then
    Outcome.thrown "DDException" (differWhat args) (differLog args) ns
  else if args.truncCN.length < 3 ∨ args.extenCN.length < 3 ∨ args.cornrCN.length < 6 then
    Outcome.thrown "DDException" (sizeWhat args) (sizeLog args) ns
  else
    let matter := args.material
    let xs := xx args
    let ys := yy args
    let tran : ℚ × ℚ × ℚ := (0, 0, zpos args)
    let zw : List ℚ := [-(1 / 2) * args.waferT, 1 / 2 * args.waferT]
    let zx : List ℚ := [0, 0]
    let zy : List ℚ := [0, 0]
    let scale : List ℚ := [1, 1]
    let zc : List ℚ := [-(1 / 2) * args.cellT, 1 / 2 * args.cellT]
    match (do
        let xw ← lookupAll xs [0, 1, 2, 3, 4, 5]
        let yw ← lookupAll ys [0, 1, 2, 3, 4, 5]
        let ns1 := addCell matter zw zc zx zy scale tran xw yw args.fullCN args.fullSensN ns
        let ns2 ← cellLoop xs ys ir0 ir1 ir2 ir3 ir4 matter zw zc zx zy scale tran
          args.truncCN args.truncSensN ns1
        let ns3 ← cellLoop xs ys ie0 ie1 ie2 ie3 ie4 matter zw zc zx zy scale tran
          args.extenCN args.extenSensN ns2
        cellLoop xs ys ic0 ic1 ic2 ic3 ic4 matter zw zc zx zy scale tran
          args.cornrCN args.cornrSensN ns3 : Option DDNamespace) with
    | some ns4 => Outcome.executed ns4
    | none => Outcome.outOfRange

/-- The list preconditions of `algorithm` are violated. -/
def Violated (args : Args) : Prop :=
  args.truncCN.length ≠ args.truncSensN.length ∨
  args.extenCN.length ≠ args.extenSensN.length ∨
  args.cornrCN.length ≠ args.cornrSensN.length ∨
  args.truncCN.length < 3 ∨ args.extenCN.length < 3 ∨ args.cornrCN.length < 6

/-- The cell and sensitive names in the order `algorithm` treats them: the full cell,
then the truncated, the extended and the corner cells. -/
def cellPairs (args : Args) : List (String × String) :=
  [(args.fullCN, args.fullSensN)] ++ args.truncCN.zip args.truncSensN
    ++ args.extenCN.zip args.extenSensN ++ args.cornrCN.zip args.cornrSensN

/-- An empty namespace that qualifies names with `hgcalcell:`. -/
def sampleNs : DDNamespace := ⟨fun n => "hgcalcell:" ++ n, [], [], []⟩

/-- Arguments with the minimum lists: 3 truncated, 3 extended and 6 corner cells. -/
def sampleArgs : Args :=
  { waferSize := 120, waferT := 1 / 10, cellT := 1 / 20, nCells := 12, posSens := 0,
    material := "Silicon", fullCN := "Full", fullSensN := "FullSens",
    truncCN := ["T1", "T2", "T3"], truncSensN := ["TS1", "TS2", "TS3"],
    extenCN := ["E1", "E2", "E3"], extenSensN := ["ES1", "ES2", "ES3"],
    cornrCN := ["C1", "C2", "C3", "C4", "C5", "C6"],
    cornrSensN := ["CS1", "CS2", "CS3", "CS4", "CS5", "CS6"] }

/-- Arguments with a sensitive list shorter than its cell list. -/
def sampleBadArgs : Args :=
  { sampleArgs with truncSensN := ["TS1", "TS2"] }

end HGCal

/-!
# Centrality table producer: `RecoHI/HiCentralityAlgos/plugins/CentralityTableProducer.cc`

The producer object with the effects of its member functions kept in the object: the
lines written to `bins.txt` (`text_`), the lines written to `cout`, the binning objects
made through the file service, and the writes to the conditions store.
-/

namespace Centrality

/-- Modelled from the spec: the source binning object (`CentralityBins`, declared in
`DataFormats/HeavyIonEvent`), "one named binning object per run", as the number of its
bins and the values its accessors return for a bin index. -/
structure CentralityBins where
  getNbins : Nat
  lowEdgeOfBin : Int → ℚ
  NpartMeanOfBin : Int → ℚ
  NpartSigmaOfBin : Int → ℚ
  NcollMeanOfBin : Int → ℚ
  NcollSigmaOfBin : Int → ℚ
  NhardMeanOfBin : Int → ℚ
  NhardSigmaOfBin : Int → ℚ
  bMeanOfBin : Int → ℚ
  bSigmaOfBin : Int → ℚ

/-- Modelled from the spec: `CentralityTable::BinValues`, the "mean/variance" pair of a
quantity (the members `mean` and `var` the producer assigns). -/
structure BinValues where
  mean : ℚ
  var : ℚ
  deriving DecidableEq

/-- Modelled from the spec: `CentralityTable::CBin`, the centrality bin record:
"per-bin scalar statistics (edge, mean/variance for participant count, collision count,
hard-scatter count, impact parameter)". -/
structure CBin where
  bin_edge : ℚ
  n_part : BinValues
  n_coll : BinValues
  n_hard : BinValues
  b : BinValues
  deriving DecidableEq

/-- Modelled from the spec: `CentralityTable`, the table of records `m_table`. -/
structure CentralityTable where
  m_table : List CBin
  deriving DecidableEq

/-- Modelled from the spec: the input ROOT file, "containing one named binning object
per run"; `Get(name)` is the object of that name, or a null pointer. -/
structure TFile where
  Get : String → Option CentralityBins

/-- The parameters the constructor reads; `none` is a parameter that is not set. -/
structure ParameterSet where
  makeDBFromTFile : Option Bool
  makeTFileFromDB : Option Bool
  isMC : Option Bool
  debug : Option Bool
  inputTFile : Option String
  rootTag : Option String

/-- Modelled from the spec: the conditions-writer service
(`cond::service::PoolDBOutputService`) when it is available, with its current time. -/
structure PoolDBOutputService where
  currentTime : Nat

/-- The text forms of a number: `operator<<` on `cout` and `Form("%0.2f", ..)`; both are
library functions, taken as given. -/
structure Format where
  stream : ℚ → String
  form2f : ℚ → String

/-- The data members of `CentralityTableProducer` (`fs` apart) and its effects:
`text_` holds the lines written to `bins.txt`, `cout` the lines written to `cout`,
`made` the directories in which a `CentralityBins` was made through the file service,
`written` the `writeOneIOV(table, time, record)` calls. A null or not yet assigned
pointer is `none`. -/
structure CentralityTableProducer where
  makeDBFromTFile_ : Bool
  makeTFileFromDB_ : Bool
  firstRunOnly_ : Bool
  debug_ : Bool
  inputTFile_ : Option TFile
  inputTFileName_ : String
  rootTag_ : String
  text_ : List String
  CB : Option CentralityBins
  runnum_ : Nat
  cout : List String
  made : List String
  written : List (CentralityTable × Nat × String)

/-- How `endJob` ends: it returns, with the object and the table `CT` it has built
(`none` when it built none), or it dereferences a null pointer. -/
inductive Result where
  | finished (s : CentralityTableProducer) (CT : Option CentralityTable)
  | nullDereference

/-- The table `endJob` has built, when it returned and built one. -/
def Result.table : Result → Option CentralityTable
  | Result.finished _ CT => CT
  | Result.nullDereference => none

/-- The producer object after `endJob`, when it returned. -/
def Result.object : Result → Option CentralityTableProducer
  | Result.finished s _ => some s
  | Result.nullDereference => none

/-- A binning object as `subDir.make<CentralityBins>()` makes it: no bins. -/
def CentralityBins.empty : CentralityBins :=
  ⟨0, fun _ => 0, fun _ => 0, fun _ => 0, fun _ => 0, fun _ => 0, fun _ => 0, fun _ => 0,
    fun _ => 0, fun _ => 0⟩

/-- The text `Form("%d", v)` gives for an `unsigned int` `v`: `%d` reads the 32 bits of
`v` as an `int`, so a value from `2 ^ 31` on is printed as the negative number
`v - 2 ^ 32` (`3000000000` as `-1294967296`). -/
def formD (v : Nat) : String :=
  if v % 2 ^ 32 < 2 ^ 31 then toString (v % 2 ^ 32)
  else "-" ++ toString (2 ^ 32 - v % 2 ^ 32)

namespace CentralityTableProducer

/-- The constructor. `getUntrackedParameter<bool>(name, default)` gives the default for
a parameter that is not set; `getParameter<string>(name)` throws for one that is not
set. `openTFile` is `new TFile(name, "read")`. The pointers `inputTFile_` (outside
export mode) and `CB` are not initialised; they are not read before they are assigned. -/
def construct (openTFile : String → TFile) (iConfig : ParameterSet) :
    Except String CentralityTableProducer :=
  let makeDBFromTFile := iConfig.makeDBFromTFile.getD true
  let makeTFileFromDB := iConfig.makeTFileFromDB.getD false
  let firstRunOnly := iConfig.isMC.getD false
  let debug := iConfig.debug.getD false
  if makeDBFromTFile then
    match iConfig.inputTFile with
    | none => Except.error "MissingParameter: inputTFile"
    | some inputTFileName =>
      match iConfig.rootTag with
      | none => Except.error "MissingParameter: rootTag"
      | some rootTag =>
        Except.ok
          { makeDBFromTFile_ := makeDBFromTFile, makeTFileFromDB_ := makeTFileFromDB,
            firstRunOnly_ := firstRunOnly, debug_ := debug,
            inputTFile_ := some (openTFile inputTFileName),
            inputTFileName_ := inputTFileName, rootTag_ := rootTag, text_ := [],
            CB := none, runnum_ := 0, cout := [inputTFileName], made := [], written := [] }
  else
    Except.ok
      { makeDBFromTFile_ := makeDBFromTFile, makeTFileFromDB_ := makeTFileFromDB,
        firstRunOnly_ := firstRunOnly, debug_ := debug, inputTFile_ := none,
        inputTFileName_ := "", rootTag_ := "", text_ := [], CB := none, runnum_ := 0,
        cout := [], made := [], written := [] }

/-- `analyze(iEvent, iSetup)` for an event of run `run` (`iEvent.id().run()`, an
`unsigned int`: a value below `2 ^ 32`). The directory is named by `Form("run%d", runnum_)`,
the line on `cout` prints the `unsigned int` itself. -/
def analyze (run : Nat) (s : CentralityTableProducer) : CentralityTableProducer :=
  if !s.makeTFileFromDB_ then s
  else if (!s.firstRunOnly_ && s.runnum_ != run) || (s.firstRunOnly_ && s.runnum_ == 0) then
    { s with
      runnum_ := run,
      cout := s.cout ++ ["Adding table for run : " ++ toString run],
      made := s.made ++ ["run" ++ formD run],
      CB := some CentralityBins.empty }
  else s

/-- The events of a job, in order, given by their run numbers. -/
def analyzeAll (runs : List Nat) (s : CentralityTableProducer) : CentralityTableProducer :=
  runs.foldl (fun acc run => analyze run acc) s

/-- The line `printBin` writes to `bins.txt`: the nine numbers of the record in the
form `%0.2f`, separated by tabs. -/
def textRow (fmt : Format) (thisBin : CBin) : String :=
  String.intercalate "\t"
    [fmt.form2f thisBin.bin_edge, fmt.form2f thisBin.n_part.mean,
      fmt.form2f thisBin.n_part.var, fmt.form2f thisBin.n_coll.mean,
      fmt.form2f thisBin.n_coll.var, fmt.form2f thisBin.n_hard.mean,
      fmt.form2f thisBin.n_hard.var, fmt.form2f thisBin.b.mean,
      fmt.form2f thisBin.b.var]

/-- `printBin(thisBin)`: eight lines on `cout`, one line in `bins.txt`. -/
def printBin (fmt : Format) (thisBin : CBin) (s : CentralityTableProducer) :
    CentralityTableProducer :=
  { s with
    cout := s.cout ++
      ["HF Cut = " ++ fmt.stream thisBin.bin_edge,
        "Npart = " ++ fmt.stream thisBin.n_part.mean,
        "sigma = " ++ fmt.stream thisBin.n_part.var,
        "Ncoll = " ++ fmt.stream thisBin.n_coll.mean,
        "sigma = " ++ fmt.stream thisBin.n_coll.var,
        "B     = " ++ fmt.stream thisBin.b.mean,
        "sigma = " ++ fmt.stream thisBin.b.var,
        "__________________________________________________"],
    text_ := s.text_ ++ [textRow fmt thisBin] }

/-- The record `thisBin` the loop of `endJob` fills for the bin `j`. -/
def thisBin (cb : CentralityBins) (j : Int) : CBin :=
  { bin_edge := cb.lowEdgeOfBin j,
    n_part := ⟨cb.NpartMeanOfBin j, cb.NpartSigmaOfBin j⟩,
    n_coll := ⟨cb.NcollMeanOfBin j, cb.NcollSigmaOfBin j⟩,
    n_hard := ⟨cb.NhardMeanOfBin j, cb.NhardSigmaOfBin j⟩,
    b := ⟨cb.bMeanOfBin j, cb.bSigmaOfBin j⟩ }

/-- The loop `for (int j = 0; j < CB->getNbins(); j++)` of `endJob`: the record is
printed, then pushed back on the table. -/
def binLoop (fmt : Format) (cb : CentralityBins)
    (start : CentralityTable × CentralityTableProducer) :
    CentralityTable × CentralityTableProducer :=
  (List.range cb.getNbins).foldl
    (fun acc (j : Nat) =>
      (⟨acc.1.m_table ++ [thisBin cb (j : Int)]⟩, printBin fmt (thisBin cb (j : Int)) acc.2))
    start

/-- The header line `endJob` writes to `bins.txt`. -/
def header : String :=
  "# BinEdge NpartMean NpartVar NcollMean NcollVar NhardMean NhardVar bMean bVar"

/-- `endJob()`. `pool` is the conditions-writer service, `none` when
`pool.isAvailable()` is false. `CB->getNbins()` on a null `CB`, like `inputTFile_->Get`
on a null `inputTFile_`, is a null-pointer dereference. In `Form("%s/run%d", ..)` the
number is `runnum_ = 1`, which `%d` prints as `1`. -/
def endJob (fmt : Format) (pool : Option PoolDBOutputService) (s : CentralityTableProducer) :
    Result :=
  if s.makeDBFromTFile_ then
    let s := { s with runnum_ := 1 }
    match s.inputTFile_ with
    | none => Result.nullDereference
    | some inputTFile =>
      let s := { s with CB := inputTFile.Get (s.rootTag_ ++ "/run" ++ toString s.runnum_) }
      let s := { s with cout := s.cout ++ [s.rootTag_] }
      match s.CB with
      | none => Result.nullDereference
      | some cb =>
        let s := { s with text_ := s.text_ ++ [header] }
        let res := binLoop fmt cb (⟨[]⟩, s)
        match pool with
        | some service =>
          Result.finished
            { res.2 with
              written := res.2.written ++ [(res.1, service.currentTime, "HeavyIonRcd")] }
            (some res.1)
        | none => Result.finished res.2 (some res.1)
  else Result.finished s none

end CentralityTableProducer

/-- The number of events of a sequence whose run number differs from the run number
before them, `prev` being the run number before the first event. -/
def runChanges : Nat → List Nat → Nat
  | _, [] => 0
  | prev, run :: rest => (if prev ≠ run then 1 else 0) + runChanges run rest

/-- The bin edges of a table, in table order. -/
def edges (CT : CentralityTable) : List ℚ :=
  CT.m_table.map (fun bin => bin.bin_edge)

/-! ## Sample objects -/

/-- A source with two bins, the edges `10` and `5` in this order. -/
def sampleSource : CentralityBins :=
  ⟨2, fun j => if j = 0 then 10 else 5, fun j => if j = 0 then 300 else 200, fun _ => 20,
    fun j => if j = 0 then 1000 else 600, fun _ => 50, fun _ => 3, fun _ => 1,
    fun j => if j = 0 then 2 else 5, fun _ => 1⟩

/-- A file that holds `sampleSource` under `HFhits/run1` and nothing else. -/
def sampleFile : TFile :=
  ⟨fun name => if name = "HFhits/run1" then some sampleSource else none⟩

/-- A file that holds no object. -/
def emptyFile : TFile := ⟨fun _ => none⟩

/-- Number formatting used in the samples: numerator and denominator. -/
def sampleFormat : Format :=
  ⟨fun q => toString q.num ++ "/" ++ toString q.den,
    fun q => toString q.num ++ "/" ++ toString q.den⟩

/-- The producer in export mode on `sampleFile`, as the constructor leaves it for the
parameters `inputTFile = "in.root"`, `rootTag = "HFhits"` and no other parameter set. -/
def sampleExport : CentralityTableProducer :=
  { makeDBFromTFile_ := true, makeTFileFromDB_ := false, firstRunOnly_ := false,
    debug_ := false, inputTFile_ := some sampleFile, inputTFileName_ := "in.root",
    rootTag_ := "HFhits", text_ := [], CB := none, runnum_ := 0, cout := ["in.root"],
    made := [], written := [] }

/-- The producer `sampleExport` on a file that holds no object. -/
def sampleExportEmpty : CentralityTableProducer :=
  { sampleExport with inputTFile_ := some emptyFile }

/-- The parameters `makeTFileFromDB = true`, `inputTFile`, `rootTag`, with
`makeDBFromTFile` left at its default. -/
def sampleBothConfig : ParameterSet :=
  ⟨none, some true, none, none, some "in.root", some "HFhits"⟩

/-- The producer the constructor makes from `sampleBothConfig` on `sampleFile`. -/
def sampleBoth : CentralityTableProducer :=
  { sampleExport with makeTFileFromDB_ := true }

/-- The producer in harvest mode only (`makeDBFromTFile = false`,
`makeTFileFromDB = true`). -/
def sampleHarvest : CentralityTableProducer :=
  { makeDBFromTFile_ := false, makeTFileFromDB_ := true, firstRunOnly_ := false,
    debug_ := false, inputTFile_ := none, inputTFileName_ := "", rootTag_ := "",
    text_ := [], CB := none, runnum_ := 0, cout := [], made := [], written := [] }

end Centrality

namespace GEMDQM

/-! ## Index arithmetic: theorems -/

/-- Both branches of `getVFATNumber` are the GE11 function. -/
theorem GEMDQMBase.getVFATNumber_unfold (base : GEMDQMBase) (station ieta vfat_phi : Int) :
    base.getVFATNumber station ieta vfat_phi = base.getVFATNumberGE11 station ieta vfat_phi := by
  unfold GEMDQMBase.getVFATNumber
  split <;> rfl

/-- What `getIEtaFromVFAT` computes: `8 - (vfat % nNumEtaPartitionGE11_)`, whatever the
station. -/
theorem GEMDQMBase.getIEtaFromVFAT_unfold (base : GEMDQMBase) (station vfat : Int) :
    base.getIEtaFromVFAT station vfat = 8 - Int.tmod vfat base.nNumEtaPartitionGE11_ := by
  unfold GEMDQMBase.getIEtaFromVFAT GEMDQMBase.getIEtaFromVFATGE11
  split <;> rfl

/-- C1: `getVFATNumber(station, ieta, vfat_phi)` is
`vfat_phi * P + (P - ieta)` with `P = nNumEtaPartitionGE11_`, and the result is the same
for every other station. -/
theorem getVFATNumber_eq (base : GEMDQMBase) (station station' ieta vfat_phi : Int) :
    base.getVFATNumber station ieta vfat_phi
      = vfat_phi * base.nNumEtaPartitionGE11_ + (base.nNumEtaPartitionGE11_ - ieta) ∧
    base.getVFATNumber station ieta vfat_phi = base.getVFATNumber station' ieta vfat_phi := by
  rw [GEMDQMBase.getVFATNumber_unfold, GEMDQMBase.getVFATNumber_unfold]
  exact ⟨rfl, rfl⟩

/-- C2 (the code at the failing input): with four eta partitions configured,
`getIEtaFromVFAT(1, 0)` is `8`, where `P - (vfat mod P)` is `4`. -/
theorem getIEtaFromVFAT_four_partitions :
    GEMDQMBase.getIEtaFromVFAT ⟨"", 0, 4, 0⟩ 1 0 = 8 ∧
      GEMDQMBase.getIEtaFromVFAT ⟨"", 0, 4, 0⟩ 1 0 ≠ (4 : Int) - 0 % 4 := by
  decide

/-- C3: `getDetOccXBin(chamber, layer, n_chambers)` is
`n_chambers * (chamber - 1) + layer`. -/
theorem getDetOccXBin_eq (chamber layer n_chambers : Int) :
    getDetOccXBin chamber layer n_chambers = n_chambers * (chamber - 1) + layer := by
  rfl

/-- C4 (counterexample): with two chambers and three layers the grid points
(chamber 1, layer 3) and (chamber 2, layer 1) share the bin 3. -/
theorem getDetOccXBin_not_injective : ¬ DetOccInjectiveOn 2 3 := by
  intro h
  have h' := h 1 2 3 1 (by decide) (by decide) (by decide) (by decide)
    (by decide) (by decide) (by decide) (by decide) (by decide)
  exact absurd h'.1 (by decide)

/-- C4 (amended): for `Nchambers ≥ 1` and `Nlayers ≥ 1`, `getDetOccXBin` is injective
on the grid `[1, Nchambers] × [1, Nlayers]` exactly when `Nlayers ≤ Nchambers`
or `Nchambers = 1`. -/
theorem getDetOccXBin_injective_iff (Nchambers Nlayers : Int)
    (hc : 1 ≤ Nchambers) (hl : 1 ≤ Nlayers) :
    DetOccInjectiveOn Nchambers Nlayers ↔ (Nlayers ≤ Nchambers ∨ Nchambers = 1) := by
  constructor
  · intro h
    by_contra hne
    push_neg at hne
    obtain ⟨hlt, hne1⟩ := hne
    have h2 : 2 ≤ Nchambers := by omega
    have h' := h 1 2 (Nchambers + 1) 1 (by omega) (by omega) (by omega) (by omega)
      (by omega) (by omega) (by omega) (by omega)
      (by unfold getDetOccXBin; ring)
    omega
  · rintro (hle | h1) c c' l l' hc1 hc2 hc1' hc2' hl1 hl2 hl1' hl2' heq
    · unfold getDetOccXBin at heq
      have hcc : c = c' := by
        by_contra hne
        rcases lt_or_gt_of_ne hne with hlt | hgt
        · have : Nchambers * (c' - 1) ≥ Nchambers * (c - 1) + Nchambers := by nlinarith
          omega
        · have : Nchambers * (c - 1) ≥ Nchambers * (c' - 1) + Nchambers := by nlinarith
          omega
      subst hcc
      exact ⟨rfl, by omega⟩
    · subst h1
      have hcc : c = c' := by omega
      subst hcc
      unfold getDetOccXBin at heq
      exact ⟨rfl, by omega⟩

/-- C4 (amended), at the grid of 36 chambers and 2 layers. -/
theorem getDetOccXBin_injective_iff_witness :
    DetOccInjectiveOn 36 2 ↔ ((2 : Int) ≤ 36 ∨ (36 : Int) = 1) :=
  getDetOccXBin_injective_iff 36 2 (by decide) (by decide)

/-- C5: for a fixed station and `vfat_phi`, `getVFATNumber` is injective in `ieta`
over `[1, P]`. -/
theorem getVFATNumber_injective_ieta (base : GEMDQMBase) (station vfat_phi ieta1 ieta2 : Int)
    (_h1 : 1 ≤ ieta1) (_h1' : ieta1 ≤ base.nNumEtaPartitionGE11_)
    (_h2 : 1 ≤ ieta2) (_h2' : ieta2 ≤ base.nNumEtaPartitionGE11_)
    (heq : base.getVFATNumber station ieta1 vfat_phi = base.getVFATNumber station ieta2 vfat_phi) :
    ieta1 = ieta2 := by
  rw [GEMDQMBase.getVFATNumber_unfold, GEMDQMBase.getVFATNumber_unfold] at heq
  unfold GEMDQMBase.getVFATNumberGE11 at heq
  omega

/-- C5, at eight partitions, station 1, `vfat_phi = 2` and `ieta = 3`. -/
theorem getVFATNumber_injective_ieta_witness :
    ((1 : Int) ≤ 3 ∧ (3 : Int) ≤ (⟨"", 0, 8, 0⟩ : GEMDQMBase).nNumEtaPartitionGE11_) ∧
      GEMDQMBase.getVFATNumber ⟨"", 0, 8, 0⟩ 1 3 2 = 21 ∧ (3 : Int) = 3 :=
  ⟨⟨by decide, by decide⟩, by decide,
   getVFATNumber_injective_ieta ⟨"", 0, 8, 0⟩ 1 2 3 3 (by decide) (by decide) (by decide)
     (by decide) rfl⟩

/-! ## The key-to-plot map: lemmas -/

namespace MEMap

variable {K : Type} [DecidableEq K]

theorem find_assign_self (m : MEMap K) (key : K) (v : Option MonitorElement) :
    (m.assign key v).find key = some v := by
  induction m with
  | nil => simp [assign, find]
  | cons e rest ih =>
    obtain ⟨k, u⟩ := e
    by_cases h : k = key
    · simp [assign, find, h]
    · simp [assign, find, h, ih]

theorem find_assign_ne (m : MEMap K) (key key' : K) (v : Option MonitorElement)
    (hne : key' ≠ key) : (m.assign key v).find key' = m.find key' := by
  induction m with
  | nil => simp [assign, find, Ne.symm hne]
  | cons e rest ih =>
    obtain ⟨k, u⟩ := e
    by_cases h : k = key
    · subst h
      simp [assign, find, Ne.symm hne]
    · by_cases h' : k = key'
      · subst h'
        simp [assign, find, hne]
      · simp [assign, find, h, h', ih]

theorem find_append_null (m : MEMap K) (key key' : K) :
    (m ++ [(key, none)]).find key' =
      match m.find key' with
      | some v => some v
      | none => if key = key' then some none else none := by
  induction m with
  | nil => simp [find]
  | cons e rest ih =>
    obtain ⟨k, u⟩ := e
    by_cases h : k = key'
    · simp [find, h]
    · simp [find, h, ih]

omit [DecidableEq K] in
theorem plots_append_null (m : MEMap K) (key : K) :
    (m ++ [(key, none)]).plots = m.plots := by
  simp [plots, List.filterMap_append]

theorem index_fst (m : MEMap K) (key : K) : (m.index key).1 = (m.find key).bind id := by
  unfold index
  cases h : m.find key <;> simp

theorem index_snd_plots (m : MEMap K) (key : K) : (m.index key).2.plots = m.plots := by
  unfold index
  cases h : m.find key <;> simp [plots_append_null]

theorem index_snd_find_bind (m : MEMap K) (key key' : K) :
    ((m.index key).2.find key').bind id = (m.find key').bind id := by
  unfold index
  cases h : m.find key with
  | some v => simp
  | none =>
    simp only [find_append_null]
    cases h' : m.find key' with
    | some v => simp
    | none => by_cases hk : key = key' <;> simp [hk]

end MEMap

namespace MEMapInfT

variable {K : Type} [DecidableEq K]

/-! ## `FindHist`: lemmas -/

theorem FindHist_fst (key : K) (r : MEMapInfT K) : (r.FindHist key).1 = r.getHist key := by
  unfold FindHist getHist
  split_ifs <;> simp [MEMap.index_fst]

theorem FindHist_snd_getHist (key key' : K) (r : MEMapInfT K) :
    (r.FindHist key).2.getHist key' = r.getHist key' := by
  unfold FindHist getHist
  split_ifs <;> exact MEMap.index_snd_find_bind _ _ _

theorem FindHist_snd_plots (key : K) (r : MEMapInfT K) :
    (r.FindHist key).2.mapHist.plots = r.mapHist.plots := by
  unfold FindHist
  split_ifs <;> simp [MEMap.index_snd_plots]

theorem FindHist_snd_bOperating (key : K) (r : MEMapInfT K) :
    (r.FindHist key).2.bOperating_ = r.bOperating_ := by
  unfold FindHist
  split_ifs <;> rfl

theorem FindHist_eq (key : K) (r : MEMapInfT K) :
    r.FindHist key = (r.getHist key, (r.FindHist key).2) := by
  rw [← FindHist_fst]

theorem getHist_setHist_ne (key key' : K) (hist : MonitorElement) (r : MEMapInfT K)
    (hne : key' ≠ key) : (r.setHist key hist).getHist key' = r.getHist key' := by
  simp [setHist, getHist, MEMap.find_assign_ne _ _ _ _ hne]

/-! ## Calls for a key that holds no plot -/

theorem Fill_of_no_plot (key : K) (x : ℚ) (r : MEMapInfT K)
    (hop : r.bOperating_ = true) (hk : r.getHist key = none) :
    r.Fill key x = (-999, (r.FindHist key).2) := by
  unfold Fill
  rw [FindHist_eq, hk]
  simp [hop]

theorem Fill2_of_no_plot (key : K) (x y w : ℚ) (r : MEMapInfT K)
    (hop : r.bOperating_ = true) (hk : r.getHist key = none) :
    r.Fill2 key x y w = (-999, (r.FindHist key).2) := by
  unfold Fill2
  rw [FindHist_eq, hk]
  simp [hop]

theorem FillBits_of_no_plot (key : K) (x : ℚ) (bits : Nat) (w : ℚ) (r : MEMapInfT K)
    (hop : r.bOperating_ = true) (hk : r.getHist key = none) :
    r.FillBits key x bits w = (-999, (r.FindHist key).2) := by
  unfold FillBits
  rw [FindHist_eq, hk]
  simp [hop]

end MEMapInfT

namespace MEMapInfT

variable {K : Type} [DecidableEq K]

/-! ## What one call can change -/

theorem TouchesOnly.bOperating {key : K} {r r' : MEMapInfT K} (h : TouchesOnly key r r') :
    r'.bOperating_ = r.bOperating_ := by
  rcases h with h | h | ⟨hist, hist', _, h⟩
  · rw [h]
  · rw [h, FindHist_snd_bOperating]
  · rw [h]
    exact FindHist_snd_bOperating key r

theorem TouchesOnly.getHist_ne {key key' : K} {r r' : MEMapInfT K}
    (h : TouchesOnly key r r') (hne : key' ≠ key) : r'.getHist key' = r.getHist key' := by
  rcases h with h | h | ⟨hist, hist', _, h⟩
  · rw [h]
  · rw [h, FindHist_snd_getHist]
  · rw [h, getHist_setHist_ne _ _ _ _ hne, FindHist_snd_getHist]

theorem TouchesOnly.getHist_none {key key' : K} {r r' : MEMapInfT K}
    (h : TouchesOnly key r r') (hk : r.getHist key' = none) : r'.getHist key' = none := by
  by_cases hne : key' = key
  · subst hne
    rcases h with h | h | ⟨hist, hist', hh, h⟩
    · rw [h, hk]
    · rw [h, FindHist_snd_getHist, hk]
    · rw [hk] at hh
      exact absurd hh (by simp)
  · rw [h.getHist_ne hne, hk]

theorem Fill_touches (key : K) (x : ℚ) (r : MEMapInfT K) :
    TouchesOnly key r (r.Fill key x).2 := by
  unfold Fill
  rw [FindHist_eq]
  by_cases hop : r.bOperating_ = true
  · cases hk : r.getHist key with
    | none => simp [hop, TouchesOnly]
    | some hist =>
      right; right
      exact ⟨hist, _, hk, by simp [hop]; rfl⟩
  · simp [hop, TouchesOnly]

theorem Fill2_touches (key : K) (x y w : ℚ) (r : MEMapInfT K) :
    TouchesOnly key r (r.Fill2 key x y w).2 := by
  unfold Fill2
  rw [FindHist_eq]
  by_cases hop : r.bOperating_ = true
  · cases hk : r.getHist key with
    | none => simp [hop, TouchesOnly]
    | some hist =>
      right; right
      exact ⟨hist, _, hk, by simp [hop]; rfl⟩
  · simp [hop, TouchesOnly]

theorem FillBits_touches (key : K) (x : ℚ) (bits : Nat) (w : ℚ) (r : MEMapInfT K) :
    TouchesOnly key r (r.FillBits key x bits w).2 := by
  unfold FillBits
  rw [FindHist_eq]
  by_cases hop : r.bOperating_ = true
  · cases hk : r.getHist key with
    | none => simp [hop, TouchesOnly]
    | some hist =>
      by_cases hy : (r.FindHist key).2.nBinsY_ ≤ 0
      · simp [hop, hy, TouchesOnly]
      · right; right
        exact ⟨hist, _, hk, by simp [hop, hy]; rfl⟩
  · simp [hop, TouchesOnly]

theorem SetLabelForChambers_touches (key : K) (nAxis nNumBin : Int) (r : MEMapInfT K) :
    TouchesOnly key r (r.SetLabelForChambers key nAxis nNumBin).2 := by
  unfold SetLabelForChambers
  rw [FindHist_eq]
  by_cases hop : r.bOperating_ = true
  · simp only [hop, Bool.not_true, Bool.false_eq_true, if_false]
    generalize (if nNumBin ≤ 0 then
        (if nAxis = 1 then some r.nBinsX_ else if nAxis = 2 then some r.nBinsY_ else none)
      else some nNumBin) = n?
    cases n? with
    | none => exact Or.inl rfl
    | some n' =>
      cases hk : r.getHist key with
      | none => exact Or.inr (Or.inl rfl)
      | some hist => exact Or.inr (Or.inr ⟨hist, _, hk, rfl⟩)
  · simp [hop, TouchesOnly]

theorem SetLabelForVFATs_touches [IdsKey K] (key : K) (n nAxis nNumBin : Int)
    (r : MEMapInfT K) : TouchesOnly key r (r.SetLabelForVFATs key n nAxis nNumBin).2 := by
  unfold SetLabelForVFATs
  rw [FindHist_eq]
  by_cases hop : r.bOperating_ = true
  · simp only [hop, Bool.not_true, Bool.false_eq_true, if_false]
    generalize (if nNumBin ≤ 0 then
        (if nAxis = 1 then some r.nBinsX_ else if nAxis = 2 then some r.nBinsY_ else none)
      else some nNumBin) = n?
    cases n? with
    | none => exact Or.inl rfl
    | some n' =>
      cases hk : r.getHist key with
      | none => exact Or.inr (Or.inl rfl)
      | some hist => exact Or.inr (Or.inr ⟨hist, _, hk, rfl⟩)
  · simp [hop, TouchesOnly]

theorem bookND_bOperating (bh : BookingHelper) (key : K) (r : MEMapInfT K) :
    (r.bookND bh key).2.bOperating_ = r.bOperating_ := by
  unfold bookND
  dsimp only
  split_ifs <;> rfl

theorem bookND_getHist_ne (bh : BookingHelper) (key key' : K) (r : MEMapInfT K)
    (hne : key' ≠ key) : (r.bookND bh key).2.getHist key' = r.getHist key' := by
  unfold bookND
  dsimp only
  split_ifs <;> simp [getHist, SetPointUOFlow, MEMap.find_assign_ne _ _ _ _ hne]

end MEMapInfT

/-! ## Call sequences: lemmas -/

section Sequences

variable {K : Type} [DecidableEq K] [IdsKey K]

theorem Op.apply_bOperating (op : Op K) (r : MEMapInfT K) :
    (op.apply r).2.bOperating_ = r.bOperating_ := by
  cases op with
  | bookND bh key => exact MEMapInfT.bookND_bOperating bh key r
  | Fill key x => exact (MEMapInfT.Fill_touches key x r).bOperating
  | Fill2 key x y w => exact (MEMapInfT.Fill2_touches key x y w r).bOperating
  | FillBits key x bits w => exact (MEMapInfT.FillBits_touches key x bits w r).bOperating
  | SetLabelForChambers key nAxis nNumBin =>
    exact (MEMapInfT.SetLabelForChambers_touches key nAxis nNumBin r).bOperating
  | SetLabelForIEta key nAxis nNumBin =>
    exact (MEMapInfT.SetLabelForChambers_touches key nAxis nNumBin r).bOperating
  | SetLabelForVFATs key n nAxis nNumBin =>
    exact (MEMapInfT.SetLabelForVFATs_touches key n nAxis nNumBin r).bOperating

theorem Op.apply_getHist_none (op : Op K) (r : MEMapInfT K) (key : K)
    (hk : r.getHist key = none) (hnb : ∀ bh, op ≠ Op.bookND bh key) :
    (op.apply r).2.getHist key = none := by
  cases op with
  | bookND bh key1 =>
    have hne : key ≠ key1 := fun h => hnb bh (by rw [h])
    show (r.bookND bh key1).2.getHist key = none
    rw [MEMapInfT.bookND_getHist_ne bh key1 key r hne, hk]
  | Fill key1 x => exact (MEMapInfT.Fill_touches key1 x r).getHist_none hk
  | Fill2 key1 x y w => exact (MEMapInfT.Fill2_touches key1 x y w r).getHist_none hk
  | FillBits key1 x bits w =>
    exact (MEMapInfT.FillBits_touches key1 x bits w r).getHist_none hk
  | SetLabelForChambers key1 nAxis nNumBin =>
    exact (MEMapInfT.SetLabelForChambers_touches key1 nAxis nNumBin r).getHist_none hk
  | SetLabelForIEta key1 nAxis nNumBin =>
    exact (MEMapInfT.SetLabelForChambers_touches key1 nAxis nNumBin r).getHist_none hk
  | SetLabelForVFATs key1 n nAxis nNumBin =>
    exact (MEMapInfT.SetLabelForVFATs_touches key1 n nAxis nNumBin r).getHist_none hk

theorem runOps_bOperating (ops : List (Op K)) (r : MEMapInfT K) :
    (runOps ops r).bOperating_ = r.bOperating_ := by
  induction ops generalizing r with
  | nil => rfl
  | cons op rest ih =>
    show (runOps rest (op.apply r).2).bOperating_ = r.bOperating_
    rw [ih, Op.apply_bOperating]

/-- A key that the sequence never books holds no plot afterwards. -/
theorem runOps_getHist_none (ops : List (Op K)) (r : MEMapInfT K) (key : K)
    (hk : r.getHist key = none) (hnb : ¬ Booked ops key) :
    (runOps ops r).getHist key = none := by
  induction ops generalizing r with
  | nil => exact hk
  | cons op rest ih =>
    show (runOps rest (op.apply r).2).getHist key = none
    apply ih
    · apply Op.apply_getHist_none op r key hk
      intro bh hop
      exact hnb ⟨bh, by rw [hop]; exact List.mem_cons_self _ _⟩
    · rintro ⟨bh, hmem⟩
      exact hnb ⟨bh, List.mem_cons_of_mem _ hmem⟩

end Sequences

/-! ## The registry: theorems -/

section Registry

variable {K : Type} [DecidableEq K] [IdsKey K]

/-- C6: on a registry that is not operating, `bookND`, `SetLabelForChambers`,
`SetLabelForIEta`, `SetLabelForVFATs`, `Fill(key, x)`, `Fill(key, x, y, w)` and
`FillBits` return 0 and leave the whole object as it was: the map is unchanged, no
plot is filled or labelled, no message is sent. -/
theorem disabled_registry_noop (r : MEMapInfT K) (hoff : r.bOperating_ = false)
    (bh : BookingHelper) (key : K) (nNumEtaPartitions nAxis nNumBin : Int) (x y w : ℚ)
    (bits : Nat) :
    r.bookND bh key = (0, r) ∧
    r.SetLabelForChambers key nAxis nNumBin = (0, r) ∧
    r.SetLabelForIEta key nAxis nNumBin = (0, r) ∧
    r.SetLabelForVFATs key nNumEtaPartitions nAxis nNumBin = (0, r) ∧
    r.Fill key x = (0, r) ∧
    r.Fill2 key x y w = (0, r) ∧
    r.FillBits key x bits w = (0, r) := by
  refine ⟨?_, ?_, ?_, ?_, ?_, ?_, ?_⟩
  · simp [MEMapInfT.bookND, hoff]
  · simp [MEMapInfT.SetLabelForChambers, hoff]
  · simp [MEMapInfT.SetLabelForIEta, MEMapInfT.SetLabelForChambers, hoff]
  · simp [MEMapInfT.SetLabelForVFATs, hoff]
  · simp [MEMapInfT.Fill, hoff]
  · simp [MEMapInfT.Fill2, hoff]
  · simp [MEMapInfT.FillBits, hoff]

/-- C7: on an operating registry that started with an empty map, for a key that no
call of the sequence so far has booked, `Fill(key, x)`, `Fill(key, x, y, w)` and
`FillBits(key, x, bits, w)` return -999 and the plots held by the registry are what
they were (no plot receives a fill). -/
theorem fill_unbooked_key (r0 : MEMapInfT K) (ops : List (Op K)) (key : K)
    (hempty : r0.mapHist = []) (hon : r0.bOperating_ = true) (hnb : ¬ Booked ops key)
    (x y w : ℚ) (bits : Nat) :
    (((runOps ops r0).Fill key x).1 = -999 ∧
      ((runOps ops r0).Fill key x).2.mapHist.plots = (runOps ops r0).mapHist.plots) ∧
    (((runOps ops r0).Fill2 key x y w).1 = -999 ∧
      ((runOps ops r0).Fill2 key x y w).2.mapHist.plots = (runOps ops r0).mapHist.plots) ∧
    (((runOps ops r0).FillBits key x bits w).1 = -999 ∧
      ((runOps ops r0).FillBits key x bits w).2.mapHist.plots
        = (runOps ops r0).mapHist.plots) := by
  have h0 : r0.getHist key = none := by simp [MEMapInfT.getHist, hempty, MEMap.find]
  have hk := runOps_getHist_none ops r0 key h0 hnb
  have hop : (runOps ops r0).bOperating_ = true := by rw [runOps_bOperating, hon]
  rw [MEMapInfT.Fill_of_no_plot key x _ hop hk, MEMapInfT.Fill2_of_no_plot key x y w _ hop hk,
    MEMapInfT.FillBits_of_no_plot key x bits w _ hop hk]
  simp [MEMapInfT.FindHist_snd_plots]

end Registry

/-- C6, at the default-constructed registry. -/
theorem disabled_registry_noop_witness :
    sampleOff.bOperating_ = false ∧
    sampleOff.bookND sampleHelper (1, 1, 1) = (0, sampleOff) ∧
    sampleOff.SetLabelForChambers (1, 1, 1) 1 (-1) = (0, sampleOff) ∧
    sampleOff.SetLabelForIEta (1, 1, 1) 1 (-1) = (0, sampleOff) ∧
    sampleOff.SetLabelForVFATs (1, 1, 1) 8 1 (-1) = (0, sampleOff) ∧
    sampleOff.Fill (1, 1, 1) 3 = (0, sampleOff) ∧
    sampleOff.Fill2 (1, 1, 1) 3 1 1 = (0, sampleOff) ∧
    sampleOff.FillBits (1, 1, 1) 3 5 1 = (0, sampleOff) :=
  ⟨rfl, disabled_registry_noop sampleOff rfl sampleHelper (1, 1, 1) 8 1 (-1) 3 1 1 5⟩

/-- C7, at the 1D registry after booking and filling `(1, 1, 1)`, for the key
`(1, 1, 2)`. -/
theorem fill_unbooked_key_witness :
    (((runOps [Op.bookND sampleHelper (1, 1, 1), Op.Fill (1, 1, 1) 3] sample1D).Fill
        (1, 1, 2) 3).1 = -999 ∧
      ((runOps [Op.bookND sampleHelper (1, 1, 1), Op.Fill (1, 1, 1) 3] sample1D).Fill
        (1, 1, 2) 3).2.mapHist.plots
        = (runOps [Op.bookND sampleHelper (1, 1, 1), Op.Fill (1, 1, 1) 3]
            sample1D).mapHist.plots) ∧
    (((runOps [Op.bookND sampleHelper (1, 1, 1), Op.Fill (1, 1, 1) 3] sample1D).Fill2
        (1, 1, 2) 3 1 1).1 = -999 ∧
      ((runOps [Op.bookND sampleHelper (1, 1, 1), Op.Fill (1, 1, 1) 3] sample1D).Fill2
        (1, 1, 2) 3 1 1).2.mapHist.plots
        = (runOps [Op.bookND sampleHelper (1, 1, 1), Op.Fill (1, 1, 1) 3]
            sample1D).mapHist.plots) ∧
    (((runOps [Op.bookND sampleHelper (1, 1, 1), Op.Fill (1, 1, 1) 3] sample1D).FillBits
        (1, 1, 2) 3 5 1).1 = -999 ∧
      ((runOps [Op.bookND sampleHelper (1, 1, 1), Op.Fill (1, 1, 1) 3] sample1D).FillBits
        (1, 1, 2) 3 5 1).2.mapHist.plots
        = (runOps [Op.bookND sampleHelper (1, 1, 1), Op.Fill (1, 1, 1) 3]
            sample1D).mapHist.plots) :=
  fill_unbooked_key sample1D [Op.bookND sampleHelper (1, 1, 1), Op.Fill (1, 1, 1) 3]
    (1, 1, 2) rfl rfl (by rintro ⟨bh, h⟩; simp at h) 3 1 1 5

/-- C8 (the code at the failing input): on the operating 1D registry with an empty
map, the single call `Fill((1, 1, 1), 3)` returns -999 and leaves an entry, a null
pointer, under the key `(1, 1, 1)`, which no call has booked. -/
theorem fill_unbooked_key_adds_entry :
    sample1D.mapHist = [] ∧ sample1D.bOperating_ = true ∧
    ¬ Booked [Op.Fill ((1, 1, 1) : ME3IdsKey) 3] (1, 1, 1) ∧
    (sample1D.Fill (1, 1, 1) 3).1 = -999 ∧
    (runOps [Op.Fill (1, 1, 1) 3] sample1D).mapHist.find (1, 1, 1) = some none ∧
    (runOps [Op.Fill (1, 1, 1) 3] sample1D).mapHist = [((1, 1, 1), none)] := by
  refine ⟨rfl, rfl, ?_, ?_, ?_, ?_⟩
  · rintro ⟨bh, h⟩
    simp at h
  · rfl
  · rfl
  · rfl

/-! ## Bins: lemmas -/

namespace MEMapInfT

variable {K : Type} [DecidableEq K]

/-! ## Calls for a key that holds a plot -/

theorem FindHist_of_plot (key : K) (hist : MonitorElement) (r : MEMapInfT K)
    (hk : r.getHist key = some hist) : r.FindHist key = (some hist, r) := by
  unfold getHist at hk
  cases hfind : r.mapHist.find key with
  | none => rw [hfind] at hk; simp at hk
  | some v =>
    rw [hfind] at hk
    simp only [Option.some_bind, id] at hk
    subst hk
    simp [FindHist, hfind, MEMap.index]

end MEMapInfT

namespace MEMapInfT

variable {K : Type} [DecidableEq K]

/-! ## The clamp points after booking -/

end MEMapInfT

/-! ## Booking, then filling: theorems -/

section BookFill

variable {K : Type} [DecidableEq K]

end BookFill

section Clamping

variable {K : Type} [DecidableEq K]

end Clamping

theorem mask_and_ne_zero (k bits : Nat) :
    ((2 ^ k % 2 ^ 32) &&& bits ≠ 0) ↔ (k < 32 ∧ bits.testBit k = true) := by
  by_cases hk : k < 32
  · rw [Nat.mod_eq_of_lt (Nat.pow_lt_pow_right (by norm_num) hk), Nat.two_pow_and]
    cases h : bits.testBit k <;> simp [hk]
  · have hdvd : 2 ^ 32 ∣ 2 ^ k := pow_dvd_pow 2 (by omega)
    rw [Nat.mod_eq_zero_of_dvd hdvd]
    simp [hk]

theorem mask_shift (k : Nat) :
    ((2 ^ k % 2 ^ 32) <<< 1) % 2 ^ 32 = 2 ^ (k + 1) % 2 ^ 32 := by
  rw [Nat.shiftLeft_eq, pow_one, Nat.mod_mul_mod, show 2 ^ (k + 1) = 2 ^ k * 2 from pow_succ 2 k]

/-- The loop of `FillBits`, started at loop variable `k + 1` with the mask `2 ^ k`
(modulo `2 ^ 32`) and run for `n` iterations. -/
theorem fillBitsLoop_eq (x : ℚ) (bits : Nat) (w : ℚ) (n k : Nat) (hist : MonitorElement) :
    MEMapInfT.fillBitsLoop x bits w n ((k : Int) + 1) (2 ^ k % 2 ^ 32) hist
      = { hist with
          fills := hist.fills ++
            ((List.range' k n).filter (fun j => decide (j < 32) && bits.testBit j)).map
              (fun (j : Nat) => FillCall.xyw x (((j : Int) + 1 : Int) : ℚ) w) } := by
  induction n generalizing k hist with
  | zero => simp [MEMapInfT.fillBitsLoop]
  | succ n ih =>
    have hcast : (k : Int) + 1 + 1 = ((k + 1 : Nat) : Int) + 1 := by push_cast; ring
    rw [MEMapInfT.fillBitsLoop, mask_shift, hcast, ih (k + 1), List.range'_succ]
    by_cases h : k < 32 ∧ bits.testBit k = true
    · have hm := (mask_and_ne_zero k bits).mpr h
      rw [if_pos hm]
      simp [h.1, h.2, List.filter_cons, MonitorElement.Fill3]
    · have hm : ¬ ((2 ^ k % 2 ^ 32) &&& bits ≠ 0) := fun hne =>
        h ((mask_and_ne_zero k bits).mp hne)
      have hf : (decide (k < 32) && bits.testBit k) = false := by
        by_cases hk : k < 32
        · have : bits.testBit k = false := by
            cases hb : bits.testBit k
            · rfl
            · exact absurd ⟨hk, hb⟩ h
          simp [this]
        · simp [hk]
      rw [if_neg hm]
      simp only [List.filter_cons, hf, Bool.false_eq_true, if_false]

/-- C11 (counterexample): on the booked 2D registry (two y bins), `FillBits` with the
mask 1 (bit 0 set) fills `(3, 1)`, not the point `(3, 0)` of the stated rule; with the
mask 4 (bit 2 set) it makes no fill, where the stated rule has the fill `(3, 2)`. -/
theorem FillBits_not_bit_index :
    ((sample2DBooked.FillBits (1, 1, 1) 3 1 1).2.getHist (1, 1, 1)).map (fun p => p.fills)
      = some [FillCall.xyw 3 1 1] ∧
    fillBitsSpec 3 1 1 = [FillCall.xyw 3 0 1] ∧
    ((sample2DBooked.FillBits (1, 1, 1) 3 4 1).2.getHist (1, 1, 1)).map (fun p => p.fills)
      = some [] ∧
    fillBitsSpec 3 4 1 = [FillCall.xyw 3 2 1] := by
  refine ⟨by decide, by decide, by decide, by decide⟩

section FillBitsAmended

variable {K : Type} [DecidableEq K]

/-- C11 (amended): for a key that holds a plot `p` on an operating registry with
`nBinsY > 0`, `FillBits(key, x, bits, w)` returns 1 and hands the plot, after the fills
it already has, the fill `(x, k + 1)` with weight `w` once for each `k < nBinsY`,
`k < 32`, whose bit (of value `2 ^ k`) is set in `bits`, in increasing order of `k`,
and nothing else; the rest of the registry is unchanged. -/
theorem FillBits_fills (r : MEMapInfT K) (key : K) (p : MonitorElement) (x : ℚ) (bits : Nat)
    (w : ℚ) (hon : r.bOperating_ = true) (hk : r.getHist key = some p)
    (hy : 0 < r.nBinsY_) :
    r.FillBits key x bits w
      = (1, r.setHist key { p with fills := p.fills ++ fillBitsCalls x bits w r.nBinsY_ }) := by
  have h0 := fillBitsLoop_eq x bits w r.nBinsY_.toNat 0 p
  have e1 : ((0 : Nat) : Int) + 1 = 1 := by norm_num
  have e2 : 2 ^ 0 % 2 ^ 32 = 1 := by norm_num
  rw [e1, e2, ← List.range_eq_range'] at h0
  unfold MEMapInfT.FillBits
  rw [MEMapInfT.FindHist_of_plot key p r hk]
  simp only [hon, Bool.not_true, Bool.false_eq_true, if_false, not_le.mpr hy]
  rw [h0]
  rfl

end FillBitsAmended

/-- C11 (amended), at the booked 2D registry, `x = 3`, mask 3 and weight 1. -/
theorem FillBits_fills_witness :
    (sample2DBooked.bOperating_ = true ∧ sample2DBooked.getHist (1, 1, 1) = some samplePlot2D ∧
      0 < sample2DBooked.nBinsY_) ∧
    sample2DBooked.FillBits (1, 1, 1) 3 3 1
      = (1, sample2DBooked.setHist (1, 1, 1)
          { samplePlot2D with
            fills := samplePlot2D.fills ++ fillBitsCalls 3 3 1 sample2DBooked.nBinsY_ }) :=
  ⟨⟨rfl, by decide, by decide⟩,
   FillBits_fills sample2DBooked (1, 1, 1) samplePlot2D 3 3 1 rfl (by decide) (by decide)⟩

/-! ## `bookND` and the explicit-edges constructor -/

/-- C12 (the code at the failing input): for the registry built with the explicit-edges
constructor from the edges `0, 1, 3`, `bookND` returns 0 and stores a fixed-width 1D
plot booked with `nBinsX_ = -1` and the uninitialised `dXL_`, `dXH_` (here 0), where
`BookingHelper::book1D(name, title, x_binning, ..)` gives the plot with two bins on
the edges `0, 1, 3`. -/
theorem bookND_explicit_edges :
    sampleEdges.x_binning_ = [0, 1, 3] ∧
    (sampleEdges.bookND sampleHelper (1, 1, 1)).1 = 0 ∧
    ((sampleEdges.bookND sampleHelper (1, 1, 1)).2.getHist (1, 1, 1)).map (fun p => p.kind)
      = some (Kind.TH1F (-1) 0 0) ∧
    (sampleHelper.book1DEdges "stat" "Status" [0, 1, 3] "x" "Entries").kind
      = Kind.TH1FEdges 2 [0, 1, 3] := by
  refine ⟨by decide, by decide, by decide, by decide⟩

/-! ## `MEStationInfo::operator==` -/

/-- C13 (counterexample): two records that differ in `fMinPhi_` compare equal, so
`a == b` is not equivalent to the equality of all eight fields. -/
theorem opEq_not_full_field :
    ¬ (sampleStationA.opEq sampleStationB = true ↔
        (sampleStationA.nRegion_ = sampleStationB.nRegion_ ∧
          sampleStationA.nStation_ = sampleStationB.nStation_ ∧
          sampleStationA.nLayer_ = sampleStationB.nLayer_ ∧
          sampleStationA.nNumChambers_ = sampleStationB.nNumChambers_ ∧
          sampleStationA.nNumEtaPartitions_ = sampleStationB.nNumEtaPartitions_ ∧
          sampleStationA.nMaxVFAT_ = sampleStationB.nMaxVFAT_ ∧
          sampleStationA.nNumDigi_ = sampleStationB.nNumDigi_ ∧
          sampleStationA.fMinPhi_ = sampleStationB.fMinPhi_)) := by
  decide

/-- C13 (amended): `a == b` is true if and only if the seven integer fields
(`nRegion_`, `nStation_`, `nLayer_`, `nNumChambers_`, `nNumEtaPartitions_`,
`nMaxVFAT_`, `nNumDigi_`) of `a` and `b` are equal; `fMinPhi_` is not compared. -/
theorem opEq_iff (a b : MEStationInfo) :
    a.opEq b = true ↔
      (a.nRegion_ = b.nRegion_ ∧ a.nStation_ = b.nStation_ ∧ a.nLayer_ = b.nLayer_ ∧
        a.nNumChambers_ = b.nNumChambers_ ∧
        a.nNumEtaPartitions_ = b.nNumEtaPartitions_ ∧
        a.nMaxVFAT_ = b.nMaxVFAT_ ∧ a.nNumDigi_ = b.nNumDigi_) := by
  unfold MEStationInfo.opEq
  simp only [Bool.and_eq_true, beq_iff_eq, and_assoc]

/-! ## Round trip of the index maps -/

/-- C21: with eight eta partitions configured, for every station, every `ieta` in
`[1, 8]` and every `vfat_phi ≥ 0`,
`getIEtaFromVFAT(station, getVFATNumber(station, ieta, vfat_phi)) = ieta`. -/
theorem getIEtaFromVFAT_getVFATNumber (base : GEMDQMBase) (station ieta vfat_phi : Int)
    (hP : base.nNumEtaPartitionGE11_ = 8) (h1 : 1 ≤ ieta) (h8 : ieta ≤ 8)
    (hphi : 0 ≤ vfat_phi) :
    base.getIEtaFromVFAT station (base.getVFATNumber station ieta vfat_phi) = ieta := by
  rw [GEMDQMBase.getIEtaFromVFAT_unfold, GEMDQMBase.getVFATNumber_unfold]
  unfold GEMDQMBase.getVFATNumberGE11
  rw [hP, Int.tmod_eq_emod (by omega) (by omega)]
  omega

/-- C21, at eight partitions, station 2, `ieta = 8` and `vfat_phi = 2`. -/
theorem getIEtaFromVFAT_getVFATNumber_witness :
    (sampleBase.nNumEtaPartitionGE11_ = 8 ∧ (1 : Int) ≤ 8 ∧ (8 : Int) ≤ 8 ∧ (0 : Int) ≤ 2) ∧
    sampleBase.getVFATNumber 2 8 2 = 16 ∧
    sampleBase.getIEtaFromVFAT 2 (sampleBase.getVFATNumber 2 8 2) = 8 :=
  ⟨⟨rfl, by decide, by decide, by decide⟩, by decide,
   getIEtaFromVFAT_getVFATNumber sampleBase 2 8 2 rfl (by decide) (by decide) (by decide)⟩

/-! ## The return code of `bookND` -/

section BookReturn

variable {K : Type} [DecidableEq K]

/-- C22: on an operating registry `bookND(key)` returns -1 exactly when the registry is
a profile or no shape matches (not a profile, not (`nBinsX > 0` and `nBinsY > 0`),
`x_binning_` empty and `nBinsX ≤ 0`), and 0 otherwise; for a profile the profile plot
has been stored under the key, and when no shape matches the map is unchanged. -/
theorem bookND_return_code (r : MEMapInfT K) (bh : BookingHelper) (key : K)
    (hon : r.bOperating_ = true) :
    ((r.bookND bh key).1 = -1 ↔
      (r.bIsProfile_ = true ∨
        (r.bIsProfile_ = false ∧ ¬ (0 < r.nBinsX_ ∧ 0 < r.nBinsY_) ∧ r.x_binning_ = [] ∧
          r.nBinsX_ ≤ 0))) ∧
    (¬ (r.bIsProfile_ = true ∨
        (r.bIsProfile_ = false ∧ ¬ (0 < r.nBinsX_ ∧ 0 < r.nBinsY_) ∧ r.x_binning_ = [] ∧
          r.nBinsX_ ≤ 0)) → (r.bookND bh key).1 = 0) ∧
    (r.bIsProfile_ = true →
      (r.bookND bh key).2.getHist key = some
        (bh.bookProfile2D r.strName_ r.strTitle_ r.nBinsX_ r.dXL_ r.dXH_ r.nBinsY_ r.dYL_
          r.dYH_ r.dZL_ r.dZH_ r.strTitleX_ r.strTitleY_)) ∧
    ((r.bIsProfile_ = false ∧ ¬ (0 < r.nBinsX_ ∧ 0 < r.nBinsY_) ∧ r.x_binning_ = [] ∧
        r.nBinsX_ ≤ 0) → (r.bookND bh key).2.mapHist = r.mapHist) := by
  unfold MEMapInfT.bookND
  simp only [hon, Bool.not_true, Bool.false_eq_true, if_false]
  have e1 : r.SetPointUOFlow.bIsProfile_ = r.bIsProfile_ := rfl
  have e2 : r.SetPointUOFlow.nBinsX_ = r.nBinsX_ := rfl
  have e3 : r.SetPointUOFlow.nBinsY_ = r.nBinsY_ := rfl
  have e4 : r.SetPointUOFlow.x_binning_ = r.x_binning_ := rfl
  have e5 : r.SetPointUOFlow.mapHist = r.mapHist := rfl
  rw [e1, e2, e3, e4]
  by_cases hp : r.bIsProfile_ = true
  · simp only [hp, if_true, true_or, not_true_eq_false, false_implies, true_implies,
      Bool.true_eq_false, false_and, iff_true, true_and]
    refine ⟨?_, trivial⟩
    simp only [MEMapInfT.getHist, MEMap.find_assign_self]
    rfl
  · have hp' : r.bIsProfile_ = false := by simpa using hp
    simp only [hp', Bool.false_eq_true, if_false, false_or, true_and, false_implies, and_true]
    by_cases h2 : r.nBinsY_ > 0 ∧ r.nBinsX_ > 0
    · have h2' : 0 < r.nBinsX_ ∧ 0 < r.nBinsY_ := ⟨h2.2, h2.1⟩
      simp only [h2, and_self, if_true, h2', not_true_eq_false, false_and, iff_false,
        not_false_eq_true, true_implies, false_implies, and_true]
      decide
    · have h2' : ¬ (0 < r.nBinsX_ ∧ 0 < r.nBinsY_) := fun h => h2 ⟨h.2, h.1⟩
      rw [if_neg h2]
      by_cases hb : r.x_binning_ = []
      · by_cases hx : r.nBinsX_ > 0
        · have hx' : ¬ r.nBinsX_ ≤ 0 := by omega
          simp [hb, hx, hx', h2']
        · have hx' : r.nBinsX_ ≤ 0 := by omega
          simp [hb, hx, hx', h2', e5]
      · have hb' : (!r.x_binning_.isEmpty) = true := by
          cases hl : r.x_binning_ with
          | nil => exact absurd hl hb
          | cons a l => rfl
        simp [hb, hb', h2']

end BookReturn

/-- C22, at the profile registry. -/
theorem bookND_return_code_witness :
    sampleProfile.bOperating_ = true ∧
    ((sampleProfile.bookND sampleHelper (1, 1, 1)).1 = -1 ↔
      (sampleProfile.bIsProfile_ = true ∨
        (sampleProfile.bIsProfile_ = false ∧
          ¬ (0 < sampleProfile.nBinsX_ ∧ 0 < sampleProfile.nBinsY_) ∧
          sampleProfile.x_binning_ = [] ∧ sampleProfile.nBinsX_ ≤ 0))) ∧
    (¬ (sampleProfile.bIsProfile_ = true ∨
        (sampleProfile.bIsProfile_ = false ∧
          ¬ (0 < sampleProfile.nBinsX_ ∧ 0 < sampleProfile.nBinsY_) ∧
          sampleProfile.x_binning_ = [] ∧ sampleProfile.nBinsX_ ≤ 0)) →
      (sampleProfile.bookND sampleHelper (1, 1, 1)).1 = 0) ∧
    (sampleProfile.bIsProfile_ = true →
      (sampleProfile.bookND sampleHelper (1, 1, 1)).2.getHist (1, 1, 1) = some
        (sampleHelper.bookProfile2D sampleProfile.strName_ sampleProfile.strTitle_
          sampleProfile.nBinsX_ sampleProfile.dXL_ sampleProfile.dXH_ sampleProfile.nBinsY_
          sampleProfile.dYL_ sampleProfile.dYH_ sampleProfile.dZL_ sampleProfile.dZH_
          sampleProfile.strTitleX_ sampleProfile.strTitleY_)) ∧
    ((sampleProfile.bIsProfile_ = false ∧
        ¬ (0 < sampleProfile.nBinsX_ ∧ 0 < sampleProfile.nBinsY_) ∧
        sampleProfile.x_binning_ = [] ∧ sampleProfile.nBinsX_ ≤ 0) →
      (sampleProfile.bookND sampleHelper (1, 1, 1)).2.mapHist = sampleProfile.mapHist) :=
  ⟨rfl, bookND_return_code sampleProfile sampleHelper (1, 1, 1) rfl⟩

end GEMDQM

/-! # HGCal cell shapes: theorems -/

namespace HGCal

theorem length_three {α : Type} (l : List α) (h : l.length = 3) :
    ∃ a b c, l = [a, b, c] := by
  rcases l with _ | ⟨a, _ | ⟨b, _ | ⟨c, _ | ⟨d, l⟩⟩⟩⟩ <;> simp at h
  exact ⟨a, b, c, rfl⟩

theorem length_six {α : Type} (l : List α) (h : l.length = 6) :
    ∃ a b c d e f, l = [a, b, c, d, e, f] := by
  rcases l with _ | ⟨a, _ | ⟨b, _ | ⟨c, _ | ⟨d, _ | ⟨e, _ | ⟨f, _ | ⟨g, l⟩⟩⟩⟩⟩⟩⟩ <;>
    simp at h
  exact ⟨a, b, c, d, e, f, rfl⟩

/-- C14: `algorithm` ends in its `cms::Exception` if and only if the list preconditions
are violated (a cell list and its sensitive list differ in length, or fewer than 3
truncated, 3 extended or 6 corner cells), and the namespace is then as it was: no solid,
no volume and no placement has been added. -/
theorem algorithm_throws_iff (args : Args) (ns : DDNamespace) :
    ((∃ category message logged ns',
        algorithm args ns = Outcome.thrown category message logged ns') ↔ Violated args) ∧
    (∀ category message logged ns',
        algorithm args ns = Outcome.thrown category message logged ns' → ns' = ns) := by
  unfold algorithm Violated
  by_cases h1 : args.truncCN.length ≠ args.truncSensN.length ∨
      args.extenCN.length ≠ args.extenSensN.length ∨
      args.cornrCN.length ≠ args.cornrSensN.length
  · rw [if_pos h1]
    refine ⟨⟨fun _ => ?_, fun _ => ⟨_, _, _, _, rfl⟩⟩, ?_⟩
    · rcases h1 with h | h | h
      · exact Or.inl h
      · exact Or.inr (Or.inl h)
      · exact Or.inr (Or.inr (Or.inl h))
    · intro c m l ns' h
      injection h with _ _ _ hns
      exact hns.symm
  · rw [if_neg h1]
    by_cases h2 : args.truncCN.length < 3 ∨ args.extenCN.length < 3 ∨ args.cornrCN.length < 6
    · rw [if_pos h2]
      refine ⟨⟨fun _ => ?_, fun _ => ⟨_, _, _, _, rfl⟩⟩, ?_⟩
      · exact Or.inr (Or.inr (Or.inr h2))
      · intro c m l ns' h
        injection h with _ _ _ hns
        exact hns.symm
    · rw [if_neg h2]
      dsimp only
      split
      · refine ⟨⟨(fun ⟨c, m, l, ns', h⟩ => by cases h), fun hv => ?_⟩,
          fun c m l ns' h => by cases h⟩
        rcases hv with h | h | h | h
        · exact absurd (Or.inl h) h1
        · exact absurd (Or.inr (Or.inl h)) h1
        · exact absurd (Or.inr (Or.inr h)) h1
        · exact absurd h h2
      · refine ⟨⟨(fun ⟨c, m, l, ns', h⟩ => by cases h), fun hv => ?_⟩,
          fun c m l ns' h => by cases h⟩
        rcases hv with h | h | h | h
        · exact absurd (Or.inl h) h1
        · exact absurd (Or.inr (Or.inl h)) h1
        · exact absurd (Or.inr (Or.inr h)) h1
        · exact absurd h h2

/-- C15: for 3 truncated, 3 extended and 6 corner cell names, each with a sensitive list
of the same length, `algorithm` returns normally having added, for each of the 13
cell/sensitive pairs (full cell, truncated, extended, corner, in this order), the cell
solid and the sensitive solid, the cell volume and the sensitive volume, and one
placement of the sensitive volume in its cell volume: 26 solids, 26 volumes and
13 placements. -/
theorem algorithm_minimum_input (args : Args) (ns : DDNamespace)
    (ht : args.truncCN.length = 3) (hts : args.truncSensN.length = 3)
    (he : args.extenCN.length = 3) (hes : args.extenSensN.length = 3)
    (hc : args.cornrCN.length = 6) (hcs : args.cornrSensN.length = 6) :
    ∃ ns', algorithm args ns = Outcome.executed ns' ∧
      (cellPairs args).length = 13 ∧
      ns'.solids.map (fun s => s.name)
        = ns.solids.map (fun s => s.name)
          ++ (cellPairs args).flatMap (fun q => [ns.prepend q.1, ns.prepend q.2]) ∧
      ns'.volumes.map (fun v => v.name)
        = ns.volumes.map (fun v => v.name)
          ++ (cellPairs args).flatMap (fun q => [ns.prepend q.1, ns.prepend q.2]) ∧
      ns'.placements
        = ns.placements
          ++ (cellPairs args).map
            (fun q => ⟨ns.prepend q.1, ns.prepend q.2, 1, (0, 0, zpos args)⟩) ∧
      ns'.solids.length = ns.solids.length + 26 ∧
      ns'.volumes.length = ns.volumes.length + 26 ∧
      ns'.placements.length = ns.placements.length + 13 := by
  obtain ⟨waferSize, waferT, cellT, nCells, posSens, material, fullCN, fullSensN, truncCN,
    truncSensN, extenCN, extenSensN, cornrCN, cornrSensN⟩ := args
  dsimp only at ht hts he hes hc hcs
  obtain ⟨t1, t2, t3, rfl⟩ := length_three truncCN ht
  obtain ⟨ts1, ts2, ts3, rfl⟩ := length_three truncSensN hts
  obtain ⟨e1, e2, e3, rfl⟩ := length_three extenCN he
  obtain ⟨es1, es2, es3, rfl⟩ := length_three extenSensN hes
  obtain ⟨c1, c2, c3, c4, c5, c6, rfl⟩ := length_six cornrCN hc
  obtain ⟨cs1, cs2, cs3, cs4, cs5, cs6, rfl⟩ := length_six cornrSensN hcs
  refine ⟨_, rfl, rfl, ?_, ?_, ?_, ?_, ?_, ?_⟩
  · simp [addCell, cellPairs]
  · simp [addCell, cellPairs]
  · simp [addCell, cellPairs]
  · simp [addCell]
  · simp [addCell]
  · simp [addCell]

/-- C15, at the sample arguments and the empty namespace. -/
theorem algorithm_minimum_input_witness :
    (sampleArgs.truncCN.length = 3 ∧ sampleArgs.truncSensN.length = 3 ∧
      sampleArgs.extenCN.length = 3 ∧ sampleArgs.extenSensN.length = 3 ∧
      sampleArgs.cornrCN.length = 6 ∧ sampleArgs.cornrSensN.length = 6) ∧
    ∃ ns', algorithm sampleArgs sampleNs = Outcome.executed ns' ∧
      (cellPairs sampleArgs).length = 13 ∧
      ns'.solids.map (fun s => s.name)
        = sampleNs.solids.map (fun s => s.name)
          ++ (cellPairs sampleArgs).flatMap
            (fun q => [sampleNs.prepend q.1, sampleNs.prepend q.2]) ∧
      ns'.volumes.map (fun v => v.name)
        = sampleNs.volumes.map (fun v => v.name)
          ++ (cellPairs sampleArgs).flatMap
            (fun q => [sampleNs.prepend q.1, sampleNs.prepend q.2]) ∧
      ns'.placements
        = sampleNs.placements
          ++ (cellPairs sampleArgs).map
            (fun q =>
              ⟨sampleNs.prepend q.1, sampleNs.prepend q.2, 1, (0, 0, zpos sampleArgs)⟩) ∧
      ns'.solids.length = sampleNs.solids.length + 26 ∧
      ns'.volumes.length = sampleNs.volumes.length + 26 ∧
      ns'.placements.length = sampleNs.placements.length + 13 :=
  ⟨⟨rfl, rfl, rfl, rfl, rfl, rfl⟩,
   algorithm_minimum_input sampleArgs sampleNs rfl rfl rfl rfl rfl rfl⟩

/-! ## Index safety -/

theorem lookupAll_some (xs : List ℚ) (idx : List Nat) (h : ∀ k ∈ idx, k < xs.length) :
    ∃ vs, lookupAll xs idx = some vs ∧ vs.length = idx.length := by
  induction idx with
  | nil => exact ⟨[], rfl, rfl⟩
  | cons k ks ih =>
    obtain ⟨vs, hvs, hlen⟩ := ih (fun j hj => h j (List.mem_cons_of_mem _ hj))
    have hk := h k (List.mem_cons_self _ _)
    refine ⟨xs[k] :: vs, ?_, by simp [hlen]⟩
    simp [lookupAll, hvs, List.getElem?_eq_getElem hk]

theorem tableRow_some (i : Nat) (ts : List (List Nat)) (h : ∀ t ∈ ts, i < t.length) :
    ∃ row, tableRow i ts = some row ∧ row.length = ts.length ∧
      ∀ k ∈ row, ∃ t ∈ ts, k ∈ t := by
  induction ts with
  | nil => exact ⟨[], rfl, rfl, fun k hk => by simp at hk⟩
  | cons t rest ih =>
    obtain ⟨row, hrow, hlen, hmem⟩ := ih (fun u hu => h u (List.mem_cons_of_mem _ hu))
    have ht := h t (List.mem_cons_self _ _)
    refine ⟨t[i] :: row, ?_, by simp [hlen], ?_⟩
    · simp [tableRow, hrow, List.getElem?_eq_getElem ht]
    · intro k hk
      rcases List.mem_cons.mp hk with hk | hk
      · exact ⟨t, List.mem_cons_self _ _, by rw [hk]; exact List.getElem_mem ht⟩
      · obtain ⟨u, hu, hku⟩ := hmem k hk
        exact ⟨u, List.mem_cons_of_mem _ hu, hku⟩

/-- With `i` inside the five tables and every table entry inside `xs` and `ys`, the
polygon of sub-cell `i` exists and has five vertices. -/
theorem vertices_some (xs ys : List ℚ) (t0 t1 t2 t3 t4 : List Nat) (i : Nat)
    (hi : ∀ t ∈ [t0, t1, t2, t3, t4], i < t.length)
    (hx : ∀ t ∈ [t0, t1, t2, t3, t4], ∀ k ∈ t, k < xs.length)
    (hy : ∀ t ∈ [t0, t1, t2, t3, t4], ∀ k ∈ t, k < ys.length) :
    ∃ xw yw, vertices xs ys t0 t1 t2 t3 t4 i = some (xw, yw) ∧
      xw.length = 5 ∧ yw.length = 5 := by
  obtain ⟨row, hrow, hlen, hmem⟩ := tableRow_some i [t0, t1, t2, t3, t4] hi
  obtain ⟨xw, hxw, hxl⟩ := lookupAll_some xs row (fun k hk => by
    obtain ⟨t, ht, hkt⟩ := hmem k hk
    exact hx t ht k hkt)
  obtain ⟨yw, hyw, hyl⟩ := lookupAll_some ys row (fun k hk => by
    obtain ⟨t, ht, hkt⟩ := hmem k hk
    exact hy t ht k hkt)
  refine ⟨xw, yw, ?_, by rw [hxl, hlen]; rfl, by rw [hyl, hlen]; rfl⟩
  simp [vertices, hrow, hxw, hyw]

/-- The body of a cell loop, folded over indices that are inside the tables and the
two name lists: no access is out of range, and each step adds two solids with five
vertices. -/
theorem cellFold_some (xs ys : List ℚ) (t0 t1 t2 t3 t4 : List Nat) (matter : String)
    (zw zc zx zy scale : List ℚ) (tran : ℚ × ℚ × ℚ) (cellN sensN : List String)
    (hx : ∀ t ∈ [t0, t1, t2, t3, t4], ∀ k ∈ t, k < xs.length)
    (hy : ∀ t ∈ [t0, t1, t2, t3, t4], ∀ k ∈ t, k < ys.length)
    (js : List Nat)
    (hjs : ∀ i ∈ js, (∀ t ∈ [t0, t1, t2, t3, t4], i < t.length) ∧ i < cellN.length ∧
      i < sensN.length)
    (ns : DDNamespace) :
    ∃ ns' added,
      js.foldlM
        (fun acc i => do
          let v ← vertices xs ys t0 t1 t2 t3 t4 i
          let cellName ← cellN[i]?
          let sensName ← sensN[i]?
          pure (addCell matter zw zc zx zy scale tran v.1 v.2 cellName sensName acc)) ns
        = some ns' ∧
      ns'.solids = ns.solids ++ added ∧ added.length = 2 * js.length ∧
      ∀ s ∈ added, s.x.length = 5 ∧ s.y.length = 5 := by
  induction js generalizing ns with
  | nil => exact ⟨ns, [], rfl, by simp, rfl, fun s hs => by simp at hs⟩
  | cons i rest ih =>
    obtain ⟨hi, hc, hs⟩ := hjs i (List.mem_cons_self _ _)
    obtain ⟨xw, yw, hv, hxl, hyl⟩ := vertices_some xs ys t0 t1 t2 t3 t4 i hi hx hy
    obtain ⟨ns', added, hfold, hsol, hlen, hall⟩ :=
      ih (fun j hj => hjs j (List.mem_cons_of_mem _ hj))
        (addCell matter zw zc zx zy scale tran xw yw cellN[i] sensN[i] ns)
    refine ⟨ns', [(⟨ns.prepend cellN[i], xw, yw, zw, zx, zy, scale⟩ : Solid),
      ⟨ns.prepend sensN[i], xw, yw, zc, zx, zy, scale⟩] ++ added, ?_, ?_, ?_, ?_⟩
    · rw [List.foldlM_cons]
      simp only [hv, List.getElem?_eq_getElem hc, List.getElem?_eq_getElem hs,
        Option.bind_eq_bind, Option.some_bind, Option.pure_def]
      exact hfold
    · rw [hsol]
      simp only [addCell, List.append_assoc]
    · simp [hlen]
      omega
    · intro s hmem
      rcases List.mem_append.mp hmem with h | h
      · simp only [List.mem_cons, List.mem_singleton, List.not_mem_nil, or_false] at h
        rcases h with h | h <;> (subst h; exact ⟨hxl, hyl⟩)
      · exact hall s h

/-- A cell loop whose name lists have equal lengths and are no longer than the tables,
with every table entry inside `xs` and `ys`, makes no access out of range and adds two
five-vertex solids per cell. -/
theorem cellLoop_some (xs ys : List ℚ) (t0 t1 t2 t3 t4 : List Nat) (matter : String)
    (zw zc zx zy scale : List ℚ) (tran : ℚ × ℚ × ℚ) (cellN sensN : List String)
    (hlen : ∀ t ∈ [t0, t1, t2, t3, t4], cellN.length ≤ t.length)
    (hsens : cellN.length = sensN.length)
    (hx : ∀ t ∈ [t0, t1, t2, t3, t4], ∀ k ∈ t, k < xs.length)
    (hy : ∀ t ∈ [t0, t1, t2, t3, t4], ∀ k ∈ t, k < ys.length)
    (ns : DDNamespace) :
    ∃ ns' added,
      cellLoop xs ys t0 t1 t2 t3 t4 matter zw zc zx zy scale tran cellN sensN ns = some ns' ∧
      ns'.solids = ns.solids ++ added ∧ added.length = 2 * cellN.length ∧
      ∀ s ∈ added, s.x.length = 5 ∧ s.y.length = 5 := by
  have h := cellFold_some xs ys t0 t1 t2 t3 t4 matter zw zc zx zy scale tran cellN sensN
    hx hy (List.range cellN.length)
    (fun i hi => ⟨fun t ht => lt_of_lt_of_le (List.mem_range.mp hi) (hlen t ht),
      List.mem_range.mp hi, hsens ▸ List.mem_range.mp hi⟩) ns
  rw [List.length_range] at h
  exact h

/-- C23: every entry of the truncated (`ir0 .. ir4`), extended (`ie0 .. ie4`) and corner
(`ic0 .. ic4`) index tables is below 18, the tables have 6, 6 and 12 entries, and `xx`
and `yy` have 18 entries; hence for arguments that pass the two checks and have at most
6 truncated, 6 extended and 12 corner cells, `algorithm` runs to `s_executed` with no
access out of range, the two solids of the full cell have 6 vertices and the two solids
of every truncated, extended and corner cell have 5. -/
theorem algorithm_index_safe (args : Args) (ns : DDNamespace) (hvalid : ¬ Violated args)
    (ht : args.truncCN.length ≤ 6) (he : args.extenCN.length ≤ 6)
    (hc : args.cornrCN.length ≤ 12) :
    ((∀ t ∈ [ir0, ir1, ir2, ir3, ir4], t.length = 6 ∧ ∀ k ∈ t, k < 18) ∧
      (∀ t ∈ [ie0, ie1, ie2, ie3, ie4], t.length = 6 ∧ ∀ k ∈ t, k < 18) ∧
      (∀ t ∈ [ic0, ic1, ic2, ic3, ic4], t.length = 12 ∧ ∀ k ∈ t, k < 18) ∧
      (xx args).length = 18 ∧ (yy args).length = 18) ∧
    ∃ ns' full sub, algorithm args ns = Outcome.executed ns' ∧
      ns'.solids = ns.solids ++ full ++ sub ∧
      full.length = 2 ∧ (∀ s ∈ full, s.x.length = 6 ∧ s.y.length = 6) ∧
      sub.length =
        2 * (args.truncCN.length + args.extenCN.length + args.cornrCN.length) ∧
      (∀ s ∈ sub, s.x.length = 5 ∧ s.y.length = 5) := by
  have hx18 : (xx args).length = 18 := rfl
  have hy18 : (yy args).length = 18 := rfl
  have hir : ∀ t ∈ [ir0, ir1, ir2, ir3, ir4], t.length = 6 ∧ ∀ k ∈ t, k < 18 := by decide
  have hie : ∀ t ∈ [ie0, ie1, ie2, ie3, ie4], t.length = 6 ∧ ∀ k ∈ t, k < 18 := by decide
  have hic : ∀ t ∈ [ic0, ic1, ic2, ic3, ic4], t.length = 12 ∧ ∀ k ∈ t, k < 18 := by decide
  refine ⟨⟨hir, hie, hic, hx18, hy18⟩, ?_⟩
  simp only [Violated, not_or, not_lt, ne_eq, not_not] at hvalid
  obtain ⟨h1, h2, h3, h4, h5, h6⟩ := hvalid
  obtain ⟨xw0, hx0, hxl⟩ := lookupAll_some (xx args) [0, 1, 2, 3, 4, 5]
    (by rw [hx18]; decide)
  obtain ⟨yw0, hy0, hyl⟩ := lookupAll_some (yy args) [0, 1, 2, 3, 4, 5]
    (by rw [hy18]; decide)
  unfold algorithm
  rw [if_neg (by omega), if_neg (by omega)]
  dsimp only
  rw [hx0, hy0]
  generalize ([-(1 / 2) * args.waferT, 1 / 2 * args.waferT] : List ℚ) = zw
  generalize ([-(1 / 2) * args.cellT, 1 / 2 * args.cellT] : List ℚ) = zc
  generalize ([0, 0] : List ℚ) = zx
  generalize ([1, 1] : List ℚ) = scale
  generalize ((0, 0, zpos args) : ℚ × ℚ × ℚ) = tran
  obtain ⟨ns2, a2, e2, s2, l2, p2⟩ := cellLoop_some (xx args) (yy args) ir0 ir1 ir2 ir3 ir4
    args.material zw zc zx zx scale tran args.truncCN args.truncSensN
    (fun t htm => by rw [(hir t htm).1]; exact ht) h1
    (fun t htm k hk => by rw [hx18]; exact (hir t htm).2 k hk)
    (fun t htm k hk => by rw [hy18]; exact (hir t htm).2 k hk)
    (addCell args.material zw zc zx zx scale tran xw0 yw0 args.fullCN args.fullSensN ns)
  obtain ⟨ns3, a3, e3, s3, l3, p3⟩ := cellLoop_some (xx args) (yy args) ie0 ie1 ie2 ie3 ie4
    args.material zw zc zx zx scale tran args.extenCN args.extenSensN
    (fun t htm => by rw [(hie t htm).1]; exact he) h2
    (fun t htm k hk => by rw [hx18]; exact (hie t htm).2 k hk)
    (fun t htm k hk => by rw [hy18]; exact (hie t htm).2 k hk) ns2
  obtain ⟨ns4, a4, e4, s4, l4, p4⟩ := cellLoop_some (xx args) (yy args) ic0 ic1 ic2 ic3 ic4
    args.material zw zc zx zx scale tran args.cornrCN args.cornrSensN
    (fun t htm => by rw [(hic t htm).1]; exact hc) h3
    (fun t htm k hk => by rw [hx18]; exact (hic t htm).2 k hk)
    (fun t htm k hk => by rw [hy18]; exact (hic t htm).2 k hk) ns3
  simp only [Option.bind_eq_bind, Option.some_bind, e2, e3, e4]
  refine ⟨ns4, [(⟨ns.prepend args.fullCN, xw0, yw0, zw, zx, zx, scale⟩ : Solid),
    ⟨ns.prepend args.fullSensN, xw0, yw0, zc, zx, zx, scale⟩], a2 ++ a3 ++ a4, rfl, ?_, rfl,
    ?_, ?_, ?_⟩
  · rw [s4, s3, s2]
    simp only [addCell, List.append_assoc]
  · intro s hs
    simp only [List.mem_cons, List.mem_singleton, List.not_mem_nil, or_false] at hs
    rcases hs with hs | hs <;> (subst hs; exact ⟨hxl, hyl⟩)
  · simp only [List.length_append, l2, l3, l4]
    omega
  · intro s hs
    rcases List.mem_append.mp hs with hs | hs
    · rcases List.mem_append.mp hs with hs | hs
      · exact p2 s hs
      · exact p3 s hs
    · exact p4 s hs

theorem algorithm_index_safe_witness :
    (¬ Violated sampleArgs ∧ sampleArgs.truncCN.length ≤ 6 ∧ sampleArgs.extenCN.length ≤ 6 ∧
      sampleArgs.cornrCN.length ≤ 12) ∧
    ∃ ns' full sub, algorithm sampleArgs sampleNs = Outcome.executed ns' ∧
      ns'.solids = sampleNs.solids ++ full ++ sub ∧
      full.length = 2 ∧ (∀ s ∈ full, s.x.length = 6 ∧ s.y.length = 6) ∧
      sub.length = 24 ∧ (∀ s ∈ sub, s.x.length = 5 ∧ s.y.length = 5) :=
  ⟨⟨by unfold Violated; decide, by decide, by decide, by decide⟩,
    (algorithm_index_safe sampleArgs sampleNs (by unfold Violated; decide) (by decide)
      (by decide) (by decide)).2⟩

end HGCal

/-! # Centrality table producer: theorems -/

namespace Centrality

open CentralityTableProducer

/-- The loop body of `endJob`, folded over any list of bin indices. -/
theorem binFold_eq (fmt : Format) (cb : CentralityBins) (js : List Nat)
    (CT0 : CentralityTable) (s0 : CentralityTableProducer) :
    ((js.foldl
        (fun (acc : CentralityTable × CentralityTableProducer) (j : Nat) =>
          ((⟨acc.1.m_table ++ [thisBin cb (j : Int)]⟩ : CentralityTable),
            printBin fmt (thisBin cb (j : Int)) acc.2))
        (CT0, s0)).1.m_table = CT0.m_table ++ js.map (fun (j : Nat) => thisBin cb (j : Int))) ∧
    ((js.foldl
        (fun (acc : CentralityTable × CentralityTableProducer) (j : Nat) =>
          ((⟨acc.1.m_table ++ [thisBin cb (j : Int)]⟩ : CentralityTable),
            printBin fmt (thisBin cb (j : Int)) acc.2))
        (CT0, s0)).2.text_
        = s0.text_ ++ js.map (fun (j : Nat) => textRow fmt (thisBin cb (j : Int)))) ∧
    ((js.foldl
        (fun (acc : CentralityTable × CentralityTableProducer) (j : Nat) =>
          ((⟨acc.1.m_table ++ [thisBin cb (j : Int)]⟩ : CentralityTable),
            printBin fmt (thisBin cb (j : Int)) acc.2))
        (CT0, s0)).2.written = s0.written) := by
  induction js generalizing CT0 s0 with
  | nil => simp
  | cons j rest ih =>
    rw [List.foldl_cons]
    obtain ⟨h1, h2, h3⟩ := ih ⟨CT0.m_table ++ [thisBin cb (j : Int)]⟩
      (printBin fmt (thisBin cb (j : Int)) s0)
    refine ⟨?_, ?_, ?_⟩
    · rw [h1]; simp
    · rw [h2]; simp [printBin]
    · rw [h3]; rfl

theorem binLoop_fst (fmt : Format) (cb : CentralityBins) (CT0 : CentralityTable)
    (s0 : CentralityTableProducer) :
    (binLoop fmt cb (CT0, s0)).1
      = ⟨CT0.m_table ++ (List.range cb.getNbins).map (fun (j : Nat) => thisBin cb (j : Int))⟩ := by
  have h := (binFold_eq fmt cb (List.range cb.getNbins) CT0 s0).1
  have hext : ∀ (a b : CentralityTable), a.m_table = b.m_table → a = b := by
    intro a b hab
    cases a
    cases b
    simp_all
  exact hext _ _ h

theorem binLoop_text (fmt : Format) (cb : CentralityBins) (CT0 : CentralityTable)
    (s0 : CentralityTableProducer) :
    (binLoop fmt cb (CT0, s0)).2.text_
      = s0.text_ ++
        (List.range cb.getNbins).map (fun (j : Nat) => textRow fmt (thisBin cb (j : Int))) :=
  (binFold_eq fmt cb (List.range cb.getNbins) CT0 s0).2.1

theorem binLoop_written (fmt : Format) (cb : CentralityBins) (CT0 : CentralityTable)
    (s0 : CentralityTableProducer) :
    (binLoop fmt cb (CT0, s0)).2.written = s0.written :=
  (binFold_eq fmt cb (List.range cb.getNbins) CT0 s0).2.2

/-- What `endJob` does in export mode when the file holds the binning object. -/
theorem endJob_export (fmt : Format) (pool : Option PoolDBOutputService)
    (s : CentralityTableProducer) (file : TFile) (cb : CentralityBins)
    (hmode : s.makeDBFromTFile_ = true) (hfile : s.inputTFile_ = some file)
    (hget : file.Get (s.rootTag_ ++ "/run" ++ toString (1 : Nat)) = some cb) :
    ∃ s', endJob fmt pool s
        = Result.finished s'
            (some ⟨(List.range cb.getNbins).map (fun (j : Nat) => thisBin cb (j : Int))⟩) ∧
      s'.text_ = s.text_ ++ header ::
        (List.range cb.getNbins).map (fun (j : Nat) => textRow fmt (thisBin cb (j : Int))) ∧
      s'.written = s.written ++
        (match pool with
          | some service =>
            [(⟨(List.range cb.getNbins).map (fun (j : Nat) => thisBin cb (j : Int))⟩,
              service.currentTime, "HeavyIonRcd")]
          | none => []) := by
  unfold endJob
  rw [if_pos hmode]
  dsimp only
  rw [hfile]
  dsimp only
  rw [hget]
  dsimp only
  cases pool with
  | none =>
    dsimp only
    apply Exists.intro
    refine ⟨?_, ?_, ?_⟩
    · rw [binLoop_fst, List.nil_append]
    · rw [binLoop_text]
      simp
    · rw [binLoop_written]
      simp
  | some service =>
    dsimp only
    apply Exists.intro
    refine ⟨?_, ?_, ?_⟩
    · rw [binLoop_fst, List.nil_append]
    · dsimp only
      rw [binLoop_text]
      simp
    · dsimp only
      rw [binLoop_written]

/-! ## Export mode -/

/-- C16 (counterexample): for the source with the two bin edges `10, 5` (in this order)
`endJob` builds the table with the edges `10, 5`, which are not in increasing order. -/
theorem export_edges_not_increasing :
    (endJob sampleFormat none sampleExport).table.map edges = some [10, 5] ∧
    ¬ List.Sorted (fun a b : ℚ => a ≤ b) [10, 5] := by
  refine ⟨by decide, by decide⟩

/-- C16 (amended): in export mode, for a source with `K` bins, `endJob` builds a table
of exactly `K` records in source order (record `j` has the bin edge `lowEdgeOfBin(j)`,
so the edges are increasing exactly when the source's are) and appends to `bins.txt`
the header line followed by `K` data rows: `K + 1` lines in the file the constructor
opened. -/
theorem export_table_and_text (fmt : Format) (pool : Option PoolDBOutputService)
    (s : CentralityTableProducer) (file : TFile) (cb : CentralityBins)
    (hmode : s.makeDBFromTFile_ = true) (hfile : s.inputTFile_ = some file)
    (hget : file.Get (s.rootTag_ ++ "/run" ++ toString (1 : Nat)) = some cb) :
    ∃ s' CT, endJob fmt pool s = Result.finished s' (some CT) ∧
      CT.m_table.length = cb.getNbins ∧
      edges CT = (List.range cb.getNbins).map (fun (j : Nat) => cb.lowEdgeOfBin (j : Int)) ∧
      s'.text_ = s.text_ ++ header ::
        (List.range cb.getNbins).map (fun (j : Nat) => textRow fmt (thisBin cb (j : Int))) ∧
      (s.text_ = [] → s'.text_.length = cb.getNbins + 1) := by
  obtain ⟨s', h1, h2, _⟩ := endJob_export fmt pool s file cb hmode hfile hget
  refine ⟨s', _, h1, ?_, ?_, h2, ?_⟩
  · simp
  · simp [edges, thisBin]
  · intro htext
    rw [h2, htext]
    simp

/-- C16 (amended), at the sample producer in export mode. -/
theorem export_table_and_text_witness :
    (sampleExport.makeDBFromTFile_ = true ∧ sampleExport.inputTFile_ = some sampleFile ∧
      sampleFile.Get (sampleExport.rootTag_ ++ "/run" ++ toString (1 : Nat))
        = some sampleSource) ∧
    ∃ s' CT, endJob sampleFormat none sampleExport = Result.finished s' (some CT) ∧
      CT.m_table.length = sampleSource.getNbins ∧
      edges CT = (List.range sampleSource.getNbins).map
        (fun (j : Nat) => sampleSource.lowEdgeOfBin (j : Int)) ∧
      s'.text_ = sampleExport.text_ ++ header ::
        (List.range sampleSource.getNbins).map
          (fun (j : Nat) => textRow sampleFormat (thisBin sampleSource (j : Int))) ∧
      (sampleExport.text_ = [] → s'.text_.length = sampleSource.getNbins + 1) :=
  ⟨⟨rfl, rfl, rfl⟩,
   export_table_and_text sampleFormat none sampleExport sampleFile sampleSource rfl rfl rfl⟩

/-- C20: in export mode, for a source with `K` bins, the table `endJob` builds has `K`
records and record `j` holds, field by field, what the source's accessors return for
bin `j`: `bin_edge = lowEdgeOfBin(j)`, each `mean` the `..MeanOfBin(j)` and each `var`
the `..SigmaOfBin(j)` of its quantity; when the conditions service is available this
table is the one written, with the service's current time, to `HeavyIonRcd`. -/
theorem export_records (fmt : Format) (pool : Option PoolDBOutputService)
    (s : CentralityTableProducer) (file : TFile) (cb : CentralityBins)
    (hmode : s.makeDBFromTFile_ = true) (hfile : s.inputTFile_ = some file)
    (hget : file.Get (s.rootTag_ ++ "/run" ++ toString (1 : Nat)) = some cb) :
    ∃ s' CT, endJob fmt pool s = Result.finished s' (some CT) ∧
      CT.m_table.length = cb.getNbins ∧
      (∀ j : Nat, j < cb.getNbins →
        CT.m_table[j]? = some
          { bin_edge := cb.lowEdgeOfBin (j : Int),
            n_part := ⟨cb.NpartMeanOfBin (j : Int), cb.NpartSigmaOfBin (j : Int)⟩,
            n_coll := ⟨cb.NcollMeanOfBin (j : Int), cb.NcollSigmaOfBin (j : Int)⟩,
            n_hard := ⟨cb.NhardMeanOfBin (j : Int), cb.NhardSigmaOfBin (j : Int)⟩,
            b := ⟨cb.bMeanOfBin (j : Int), cb.bSigmaOfBin (j : Int)⟩ }) ∧
      (∀ service, pool = some service →
        s'.written = s.written ++ [(CT, service.currentTime, "HeavyIonRcd")]) := by
  obtain ⟨s', h1, _, h3⟩ := endJob_export fmt pool s file cb hmode hfile hget
  refine ⟨s', _, h1, ?_, ?_, ?_⟩
  · simp
  · intro j hj
    simp [List.getElem?_map, List.getElem?_range hj, thisBin]
  · intro service hpool
    rw [h3, hpool]

/-- C20, at the sample producer in export mode with the conditions service available. -/
theorem export_records_witness :
    (sampleExport.makeDBFromTFile_ = true ∧ sampleExport.inputTFile_ = some sampleFile ∧
      sampleFile.Get (sampleExport.rootTag_ ++ "/run" ++ toString (1 : Nat))
        = some sampleSource) ∧
    ∃ s' CT, endJob sampleFormat (some ⟨7⟩) sampleExport = Result.finished s' (some CT) ∧
      CT.m_table.length = sampleSource.getNbins ∧
      (∀ j : Nat, j < sampleSource.getNbins →
        CT.m_table[j]? = some
          { bin_edge := sampleSource.lowEdgeOfBin (j : Int),
            n_part := ⟨sampleSource.NpartMeanOfBin (j : Int),
              sampleSource.NpartSigmaOfBin (j : Int)⟩,
            n_coll := ⟨sampleSource.NcollMeanOfBin (j : Int),
              sampleSource.NcollSigmaOfBin (j : Int)⟩,
            n_hard := ⟨sampleSource.NhardMeanOfBin (j : Int),
              sampleSource.NhardSigmaOfBin (j : Int)⟩,
            b := ⟨sampleSource.bMeanOfBin (j : Int), sampleSource.bSigmaOfBin (j : Int)⟩ }) ∧
      (∀ service, (some ⟨7⟩ : Option PoolDBOutputService) = some service →
        s'.written = sampleExport.written ++ [(CT, service.currentTime, "HeavyIonRcd")]) :=
  ⟨⟨rfl, rfl, rfl⟩,
   export_records sampleFormat (some ⟨7⟩) sampleExport sampleFile sampleSource rfl rfl rfl⟩

/-- C18 (the code at the failing input): in export mode on a file that does not hold
the binning object, `Get` returns a null pointer and `endJob` dereferences it
(`CB->getNbins()`); it does not return. With the object present and the conditions
service unavailable, `endJob` returns and has written nothing to the store. -/
theorem endJob_missing_source :
    sampleExportEmpty.makeDBFromTFile_ = true ∧
    emptyFile.Get (sampleExportEmpty.rootTag_ ++ "/run" ++ toString (1 : Nat)) = none ∧
    endJob sampleFormat (some ⟨7⟩) sampleExportEmpty = Result.nullDereference ∧
    endJob sampleFormat none sampleExportEmpty = Result.nullDereference ∧
    ((endJob sampleFormat none sampleExport).object.map (fun s => s.written)) = some [] := by
  refine ⟨rfl, rfl, rfl, rfl, by decide⟩

/-! ## The two modes -/

/-- What the constructor leaves in the object. -/
theorem construct_fields (openTFile : String → TFile) (iConfig : ParameterSet)
    (s : CentralityTableProducer) (hs : construct openTFile iConfig = Except.ok s) :
    s.makeDBFromTFile_ = iConfig.makeDBFromTFile.getD true ∧
    s.makeTFileFromDB_ = iConfig.makeTFileFromDB.getD false ∧
    s.firstRunOnly_ = iConfig.isMC.getD false ∧
    s.runnum_ = 0 ∧ s.made = [] ∧ s.text_ = [] ∧ s.written = [] ∧
    (s.makeDBFromTFile_ = true → ∃ file, s.inputTFile_ = some file) := by
  unfold construct at hs
  dsimp only at hs
  split at hs
  · split at hs
    · cases hs
    · split at hs
      · cases hs
      · injection hs with hs
        subst hs
        exact ⟨rfl, rfl, rfl, rfl, rfl, rfl, rfl, fun _ => ⟨_, rfl⟩⟩
  · rename_i hflag
    injection hs with hs
    subst hs
    refine ⟨rfl, rfl, rfl, rfl, rfl, rfl, rfl, fun h => ?_⟩
    exact absurd h hflag

theorem analyze_off (run : Nat) (s : CentralityTableProducer)
    (h : s.makeTFileFromDB_ = false) : analyze run s = s := by
  simp [analyze, h]

theorem analyzeAll_off (runs : List Nat) (s : CentralityTableProducer)
    (h : s.makeTFileFromDB_ = false) : analyzeAll runs s = s := by
  induction runs with
  | nil => rfl
  | cons run rest ih =>
    show analyzeAll rest (analyze run s) = s
    rw [analyze_off run s h, ih]

/-- The directory names `Form("run%d", runnum_)` gives: the run number itself below
`2 ^ 31`, a negative number from there on. -/
theorem formD_values :
    formD 1 = "1" ∧ formD 2147483647 = "2147483647" ∧
    formD 2147483648 = "-2147483648" ∧ formD 3000000000 = "-1294967296" := by
  refine ⟨by decide, by decide, by decide, by decide⟩

/-- C17 (counterexample): with `makeTFileFromDB = true` and `makeDBFromTFile` left at
its default, the constructor makes an object for which `analyze` makes a binning object
on the first event and `endJob` builds and returns the table: both modes are active. -/
theorem both_modes_active :
    (construct (fun _ => sampleFile) sampleBothConfig).toOption.map
        (fun s => (s.makeDBFromTFile_, s.makeTFileFromDB_)) = some (true, true) ∧
    (analyze 1 sampleBoth).made = ["run1"] ∧
    (endJob sampleFormat none sampleBoth).table.map (fun CT => CT.m_table.length)
      = some 2 := by
  refine ⟨by decide, by decide, by decide⟩

/-- C17 (amended): for the object the constructor makes from a configuration, harvest
mode is active exactly when `makeTFileFromDB` is true (default false): on the first event
(of a run numbered from 1) `analyze` makes one binning object, the count of objects made
growing by one, if and only if it is true, and `analyze` changes nothing on any event
sequence when it is false; export mode is active
exactly when `makeDBFromTFile` is true (default true): `endJob` returns at once, having
done nothing, if and only if it is false. The two flags are independent. -/
theorem modes_follow_flags (openTFile : String → TFile) (iConfig : ParameterSet)
    (s : CentralityTableProducer) (hs : construct openTFile iConfig = Except.ok s) :
    (∀ run, 1 ≤ run →
      ((analyze run s).made.length = s.made.length + 1 ↔
        iConfig.makeTFileFromDB.getD false = true)) ∧
    (iConfig.makeTFileFromDB.getD false = false → ∀ runs, analyzeAll runs s = s) ∧
    (∀ fmt pool,
      (endJob fmt pool s = Result.finished s none ↔
        iConfig.makeDBFromTFile.getD true = false)) := by
  obtain ⟨hdb, htf, _, hrun, _, _, _, hfile⟩ := construct_fields openTFile iConfig s hs
  rw [← hdb, ← htf]
  refine ⟨?_, ?_, ?_⟩
  · intro run hrun1
    constructor
    · intro h
      by_contra hoff
      rw [analyze_off run s (by simpa using hoff)] at h
      simp at h
    · intro hon
      have hne : (0 != run) = true := by
        simp only [bne_iff_ne, ne_eq]
        omega
      cases hfr : s.firstRunOnly_ <;> simp [analyze, hon, hrun, hfr, hne]
  · intro hoff runs
    exact analyzeAll_off runs s hoff
  · intro fmt pool
    constructor
    · intro h
      by_contra hon
      have hon' : s.makeDBFromTFile_ = true := by simpa using hon
      obtain ⟨file, hf⟩ := hfile hon'
      unfold endJob at h
      rw [if_pos hon'] at h
      dsimp only at h
      rw [hf] at h
      dsimp only at h
      split at h
      · cases h
      · split at h <;> exact absurd (congrArg Result.table h) (by simp [Result.table])
    · intro hoff
      simp [endJob, hoff]

/-- C17 (amended), at the configuration with `makeTFileFromDB = true` only. -/
theorem modes_follow_flags_witness :
    construct (fun _ => sampleFile) sampleBothConfig = Except.ok sampleBoth ∧
    (∀ run, 1 ≤ run →
      ((analyze run sampleBoth).made.length = sampleBoth.made.length + 1 ↔
        sampleBothConfig.makeTFileFromDB.getD false = true)) ∧
    (sampleBothConfig.makeTFileFromDB.getD false = false →
      ∀ runs, analyzeAll runs sampleBoth = sampleBoth) ∧
    (∀ fmt pool,
      (endJob fmt pool sampleBoth = Result.finished sampleBoth none ↔
        sampleBothConfig.makeDBFromTFile.getD true = false)) :=
  ⟨rfl, modes_follow_flags (fun _ => sampleFile) sampleBothConfig sampleBoth rfl⟩

/-! ## Harvest mode -/

theorem analyze_on (run : Nat) (s : CentralityTableProducer)
    (hmode : s.makeTFileFromDB_ = true) (hMC : s.firstRunOnly_ = false) :
    (analyze run s).makeTFileFromDB_ = true ∧ (analyze run s).firstRunOnly_ = false ∧
    (analyze run s).runnum_ = run ∧
    (analyze run s).made.length = s.made.length + (if s.runnum_ ≠ run then 1 else 0) := by
  by_cases h : s.runnum_ = run
  · simp [analyze, hmode, hMC, h]
  · simp [analyze, hmode, hMC, h]

theorem analyzeAll_made (runs : List Nat) (s : CentralityTableProducer)
    (hmode : s.makeTFileFromDB_ = true) (hMC : s.firstRunOnly_ = false) :
    (analyzeAll runs s).made.length = s.made.length + runChanges s.runnum_ runs := by
  induction runs generalizing s with
  | nil => rfl
  | cons run rest ih =>
    obtain ⟨h1, h2, h3, h4⟩ := analyze_on run s hmode hMC
    show (analyzeAll rest (analyze run s)).made.length = _
    rw [ih (analyze run s) h1 h2, h3, h4, runChanges]
    omega

/-- Along a sequence of run numbers that never decrease, starting from a run number not
above them, the run changes count the distinct run numbers, the first apart. -/
theorem runChanges_sorted (prev : Nat) (runs : List Nat)
    (hprev : ∀ run ∈ runs, prev ≤ run) (hsorted : List.Sorted (fun a b : Nat => a ≤ b) runs) :
    runChanges prev runs + 1 = (prev :: runs).dedup.length := by
  induction runs generalizing prev with
  | nil => simp [runChanges]
  | cons run rest ih =>
    have hs := List.sorted_cons.mp hsorted
    have ih' := ih run hs.1 hs.2
    have hle : prev ≤ run := hprev run (List.mem_cons_self _ _)
    by_cases h : prev = run
    · subst h
      rw [runChanges, if_neg (by simp), List.dedup_cons_of_mem (List.mem_cons_self _ _)]
      omega
    · have hnot : prev ∉ run :: rest := by
        intro hmem
        rcases List.mem_cons.mp hmem with h' | h'
        · exact h h'
        · have := hs.1 prev h'
          omega
      rw [runChanges, if_pos h, List.dedup_cons_of_not_mem hnot, List.length_cons]
      omega

/-- C19 (counterexample): for the events of the runs `1, 2, 1` harvest mode makes three
binning objects (`run1`, `run2`, `run1`), while two distinct runs occur. -/
theorem harvest_runs_121 :
    (analyzeAll [1, 2, 1] sampleHarvest).made = ["run1", "run2", "run1"] ∧
    ([1, 2, 1] : List Nat).dedup.length = 2 := by
  refine ⟨by decide, by decide⟩

/-- C19 (amended): with `makeTFileFromDB` set and `isMC` unset, the number of binning
objects `analyze` makes over a sequence of events equals the number of events whose run
number differs from that of the event before (from `runnum_` for the first event); from
the constructed object (`runnum_ = 0`), with runs numbered from 1 and run numbers that
never decrease along the sequence, it equals the number of distinct run numbers. -/
theorem harvest_counts_run_changes (runs : List Nat) (s : CentralityTableProducer)
    (hmode : s.makeTFileFromDB_ = true) (hMC : s.firstRunOnly_ = false) :
    (analyzeAll runs s).made.length = s.made.length + runChanges s.runnum_ runs ∧
    (s.runnum_ = 0 → (∀ run ∈ runs, 1 ≤ run) →
      List.Sorted (fun a b : Nat => a ≤ b) runs →
      (analyzeAll runs s).made.length = s.made.length + runs.dedup.length) := by
  refine ⟨analyzeAll_made runs s hmode hMC, fun h0 hpos hsorted => ?_⟩
  rw [analyzeAll_made runs s hmode hMC, h0]
  have h := runChanges_sorted 0 runs (fun run _ => Nat.zero_le run) hsorted
  have hnot : (0 : Nat) ∉ runs := fun hmem => by
    have := hpos 0 hmem
    omega
  rw [List.dedup_cons_of_not_mem hnot, List.length_cons] at h
  omega

/-- C19 (amended), at the harvest-mode producer and the runs `1, 1, 2, 3, 3`. -/
theorem harvest_counts_run_changes_witness :
    (sampleHarvest.makeTFileFromDB_ = true ∧ sampleHarvest.firstRunOnly_ = false) ∧
    (analyzeAll [1, 1, 2, 3, 3] sampleHarvest).made.length
      = sampleHarvest.made.length + runChanges sampleHarvest.runnum_ [1, 1, 2, 3, 3] ∧
    (sampleHarvest.runnum_ = 0 → (∀ run ∈ [1, 1, 2, 3, 3], 1 ≤ run) →
      List.Sorted (fun a b : Nat => a ≤ b) [1, 1, 2, 3, 3] →
      (analyzeAll [1, 1, 2, 3, 3] sampleHarvest).made.length
        = sampleHarvest.made.length + ([1, 1, 2, 3, 3] : List Nat).dedup.length) :=
  ⟨⟨rfl, rfl⟩, harvest_counts_run_changes [1, 1, 2, 3, 3] sampleHarvest rfl rfl⟩

end Centrality
